import Mathlib

/-!
Shallow embedding of the xenofde-backend ingestion/reconciliation engine.

Sources embedded:
  * `src/services/ingestion.service.ts` — `IngestionService.ingestCustomers`,
    `ingestProducts`, `ingestOrders`, `ingestAll`;
  * `src/services/shopify.service.ts` — the wire record shapes, the paginated
    collection fetchers (`getCustomers`/`getProducts`/`getOrders`) and the
    single-record fetchers (`getCustomer`/`getProduct`/`getOrder`);
  * `src/routes/webhook.routes.ts` — `verifyShopifyWebhook` and the
    `POST /shopify` handler with its per-topic dispatch;
  * `src/scheduler/sync.scheduler.ts` — the per-tenant loop of one scheduled
    sync cycle.

The Prisma-backed relational store is modelled as lists of rows with a
fresh-id counter; `findUnique` on the `(tenantId, shopifyId)` natural key is a
list search, `update` rewrites the row with the given internal id, `create`
appends a row with a fresh internal id, `deleteMany` filters.  JS numbers
produced by `parseFloat` are modelled as `JSNum` (a rational or NaN);
timestamps are kept as the raw wire strings (`new Date(s)` is injective on
them and no claim inspects dates).
-/

namespace XenoFDE

/-- Model of a JS number as produced by `parseFloat`: either NaN or a
rational value. -/
inductive JSNum where
  | nan : JSNum
  | num : Rat → JSNum
deriving DecidableEq, Repr

/-- Value of the digit list read in base 10. -/
def digitsToNat (ds : List Char) : Nat :=
  ds.foldl (fun a c => a * 10 + (c.toNat - 48)) 0

/-- Model of JS `parseFloat` restricted to plain decimal literals: skip
leading spaces, optional sign, digits, optional `.` and fraction digits, and
ignore any trailing garbage (JS parses the longest numeric prefix).  A string
with no leading numeric prefix parses to NaN. -/
def parseFloat (s : String) : JSNum :=
  let cs := s.data.dropWhile (fun c => c = ' ')
  let (sign, cs) : Int × List Char :=
    match cs with
    | '-' :: rest => (-1, rest)
    | '+' :: rest => (1, rest)
    | _ => (1, cs)
  let intDs := cs.takeWhile Char.isDigit
  let rest := cs.dropWhile Char.isDigit
  let fracDs :=
    match rest with
    | '.' :: r => r.takeWhile Char.isDigit
    | _ => []
  if intDs.isEmpty && fracDs.isEmpty then JSNum.nan
  else
    JSNum.num ((sign * (digitsToNat intDs * 10 ^ fracDs.length + digitsToNat fracDs) : Int) /
      ((10 : Rat) ^ fracDs.length))

/-- JS `parseFloat(s) || 0`: NaN coerces to `0` (and `0 || 0` is `0`). -/
def parseFloatOr0 (s : String) : Rat :=
  match parseFloat s with
  | JSNum.nan => 0
  | JSNum.num q => q

/-- JS `s || null` on an optional string: `undefined` and the empty string
(both falsy) become null. -/
def jsStrOrNull (s : Option String) : Option String :=
  match s with
  | none => none
  | some v => if v = "" then none else some v

/-- JS `n || 0` on an optional integer field (`undefined` and `0` are falsy). -/
def jsIntOr0 (n : Option Int) : Int :=
  match n with
  | none => 0
  | some v => v

/-- JS truthiness of an optional string (`undefined` and `""` are falsy). -/
def jsTruthy (s : Option String) : Bool :=
  match s with
  | none => false
  | some v => v ≠ ""

/-! ### Wire shapes (`src/services/shopify.service.ts` interfaces) -/

/-- `ShopifyCustomer` wire record. -/
structure ShopifyCustomer where
  id : String
  email : Option String := none
  first_name : Option String := none
  last_name : Option String := none
  phone : Option String := none
  total_spent : String
  orders_count : Option Int := none
  created_at : Option String := none
  updated_at : Option String := none
deriving DecidableEq, Repr

/-- A product variant as consumed by the mapper (first variant only). -/
structure ShopifyVariant where
  price : String
  compare_at_price : Option String := none
  inventory_quantity : Option Int := none
deriving DecidableEq, Repr

/-- `ShopifyProduct` wire record. -/
structure ShopifyProduct where
  id : String
  title : String
  handle : Option String := none
  vendor : Option String := none
  product_type : Option String := none
  status : Option String := none
  variants : List ShopifyVariant := []
  created_at : Option String := none
  updated_at : Option String := none
deriving DecidableEq, Repr

/-- An order line item on the wire. -/
structure ShopifyLineItem where
  id : String
  product_id : Option String := none
  title : String
  quantity : Int
  price : String
  total_discount : Option String := none
  sku : Option String := none
  variant_title : Option String := none
deriving DecidableEq, Repr

/-- `ShopifyOrder` wire record (`customer` is the optional `{ id }` object). -/
structure ShopifyOrder where
  id : String
  order_number : Option Int := none
  email : Option String := none
  financial_status : Option String := none
  fulfillment_status : Option String := none
  total_price : String
  subtotal_price : Option String := none
  total_tax : Option String := none
  total_discounts : Option String := none
  currency : Option String := none
  customer : Option String := none
  line_items : List ShopifyLineItem := []
  created_at : Option String := none
  updated_at : Option String := none
deriving DecidableEq, Repr

/-! ### Stored rows (Prisma models, `prisma/migrations` schema) -/

/-- A stored `Customer` row. -/
structure CustomerRow where
  id : Nat
  tenantId : String
  shopifyId : String
  email : Option String
  firstName : Option String
  lastName : Option String
  phone : Option String
  totalSpent : Rat
  ordersCount : Int
  shopifyCreatedAt : Option String
  shopifyUpdatedAt : Option String
deriving DecidableEq, Repr

/-- A stored `Product` row. -/
structure ProductRow where
  id : Nat
  tenantId : String
  shopifyId : String
  title : String
  handle : Option String
  vendor : Option String
  productType : Option String
  status : Option String
  price : Option JSNum
  compareAtPrice : Option JSNum
  inventoryQuantity : Int
  shopifyCreatedAt : Option String
  shopifyUpdatedAt : Option String
deriving DecidableEq, Repr

/-- A stored `Order` row. -/
structure OrderRow where
  id : Nat
  tenantId : String
  shopifyId : String
  orderNumber : Option String
  email : Option String
  financialStatus : Option String
  fulfillmentStatus : Option String
  totalPrice : Rat
  subtotalPrice : Option JSNum
  totalTax : Option JSNum
  totalDiscounts : Option JSNum
  currency : String
  customerId : Option Nat
  shopifyCreatedAt : Option String
  shopifyUpdatedAt : Option String
deriving DecidableEq, Repr

/-- A stored `OrderItem` row. -/
structure OrderItemRow where
  id : Nat
  orderId : Nat
  productId : Option Nat
  shopifyProductId : Option String
  title : String
  quantity : Int
  price : Rat
  totalDiscount : Option JSNum
  sku : Option String
  variantTitle : Option String
deriving DecidableEq, Repr

/-- The tenant-scoped relational store, with a counter supplying fresh
internal ids. -/
structure Store where
  customers : List CustomerRow
  products : List ProductRow
  orders : List OrderRow
  orderItems : List OrderItemRow
  nextId : Nat
deriving DecidableEq, Repr

/-- The empty store. -/
def emptyStore : Store := ⟨[], [], [], [], 0⟩

/-- `prisma.customer.findUnique` on the `(tenantId, shopifyId)` natural key. -/
def Store.findCustomer (s : Store) (tid sid : String) : Option CustomerRow :=
  s.customers.find? (fun r => decide (r.tenantId = tid ∧ r.shopifyId = sid))

/-- `prisma.product.findUnique` on the `(tenantId, shopifyId)` natural key. -/
def Store.findProduct (s : Store) (tid sid : String) : Option ProductRow :=
  s.products.find? (fun r => decide (r.tenantId = tid ∧ r.shopifyId = sid))

/-- `prisma.order.findUnique` on the `(tenantId, shopifyId)` natural key. -/
def Store.findOrder (s : Store) (tid sid : String) : Option OrderRow :=
  s.orders.find? (fun r => decide (r.tenantId = tid ∧ r.shopifyId = sid))

/-- Rows of the `order_items` table belonging to one order. -/
def Store.itemsFor (s : Store) (oid : Nat) : List OrderItemRow :=
  s.orderItems.filter (fun it => decide (it.orderId = oid))

/-- Internal ids are unique and below the fresh-id counter: the invariant
every store reachable by the engine satisfies (Prisma's `id` column is the
primary key and generated fresh on create). -/
structure Store.WF (s : Store) : Prop where
  customersNodup : (s.customers.map (·.id)).Nodup
  customersLt : ∀ r ∈ s.customers, r.id < s.nextId
  productsNodup : (s.products.map (·.id)).Nodup
  productsLt : ∀ r ∈ s.products, r.id < s.nextId
  ordersNodup : (s.orders.map (·.id)).Nodup
  ordersLt : ∀ r ∈ s.orders, r.id < s.nextId
  orderItemsNodup : (s.orderItems.map (·.id)).Nodup
  orderItemsLt : ∀ r ∈ s.orderItems, r.id < s.nextId

/-! ### Entity mappers (the `data` object literals in `ingestion.service.ts`) -/

/-- The `data` object built for a customer (ingestion.service.ts lines 29–39). -/
def customerData (c : ShopifyCustomer) (tid : String) (rid : Nat) : CustomerRow :=
  { id := rid
    tenantId := tid
    shopifyId := c.id
    email := jsStrOrNull c.email
    firstName := jsStrOrNull c.first_name
    lastName := jsStrOrNull c.last_name
    phone := jsStrOrNull c.phone
    totalSpent := parseFloatOr0 c.total_spent
    ordersCount := jsIntOr0 c.orders_count
    shopifyCreatedAt := jsStrOrNull c.created_at
    shopifyUpdatedAt := jsStrOrNull c.updated_at }

/-- `prisma.customer.update` writes every `data` field onto the row with the
given internal id, leaving `id` and `tenantId` in place. -/
def applyCustomerData (c : ShopifyCustomer) (r : CustomerRow) : CustomerRow :=
  customerData c r.tenantId r.id

/-- The `data` object built for a product (ingestion.service.ts lines 77–97):
pricing comes from the first variant; `price` is `parseFloat` of the variant
price with no NaN guard, `compareAtPrice` only parses a truthy string. -/
def productData (p : ShopifyProduct) (tid : String) (rid : Nat) : ProductRow :=
  let firstVariant := p.variants.head?
  { id := rid
    tenantId := tid
    shopifyId := p.id
    title := p.title
    handle := jsStrOrNull p.handle
    vendor := jsStrOrNull p.vendor
    productType := jsStrOrNull p.product_type
    status := jsStrOrNull p.status
    price := firstVariant.map (fun v => parseFloat v.price)
    compareAtPrice :=
      match firstVariant with
      | some v =>
          if jsTruthy v.compare_at_price then
            (v.compare_at_price.map parseFloat)
          else none
      | none => none
    inventoryQuantity := jsIntOr0 (firstVariant.bind (·.inventory_quantity))
    shopifyCreatedAt := jsStrOrNull p.created_at
    shopifyUpdatedAt := jsStrOrNull p.updated_at }

/-- `prisma.product.update` semantics. -/
def applyProductData (p : ShopifyProduct) (r : ProductRow) : ProductRow :=
  productData p r.tenantId r.id

/-- The `orderData` object (ingestion.service.ts lines 149–165), after the
customer reference has been resolved to `customerId`. -/
def orderData (o : ShopifyOrder) (customerId : Option Nat) (tid : String)
    (rid : Nat) : OrderRow :=
  { id := rid
    tenantId := tid
    shopifyId := o.id
    orderNumber := jsStrOrNull (o.order_number.map toString)
    email := jsStrOrNull o.email
    financialStatus := jsStrOrNull o.financial_status
    fulfillmentStatus := jsStrOrNull o.fulfillment_status
    totalPrice := parseFloatOr0 o.total_price
    subtotalPrice :=
      if jsTruthy o.subtotal_price then o.subtotal_price.map parseFloat else none
    totalTax :=
      if jsTruthy o.total_tax then o.total_tax.map parseFloat else none
    totalDiscounts :=
      if jsTruthy o.total_discounts then o.total_discounts.map parseFloat else none
    currency := match jsStrOrNull o.currency with | some c => c | none => "USD"
    customerId := customerId
    shopifyCreatedAt := jsStrOrNull o.created_at
    shopifyUpdatedAt := jsStrOrNull o.updated_at }

/-- `prisma.order.update` semantics. -/
def applyOrderData (o : ShopifyOrder) (customerId : Option Nat) (r : OrderRow) :
    OrderRow :=
  orderData o customerId r.tenantId r.id

/-- The `orderItem.create` data (ingestion.service.ts lines 206–218), after
the product reference has been resolved to `productId`. -/
def orderItemData (item : ShopifyLineItem) (oid : Nat) (productId : Option Nat)
    (rid : Nat) : OrderItemRow :=
  { id := rid
    orderId := oid
    productId := productId
    shopifyProductId := jsStrOrNull item.product_id
    title := item.title
    quantity := item.quantity
    price := parseFloatOr0 item.price
    totalDiscount :=
      if jsTruthy item.total_discount then item.total_discount.map parseFloat
      else none
    sku := jsStrOrNull item.sku
    variantTitle := jsStrOrNull item.variant_title }

/-! ### Reconciliation loops (`IngestionService`) -/

/-- Created/updated counters returned by each ingestion. -/
structure Counts where
  created : Nat
  updated : Nat
deriving DecidableEq, Repr

/-- One iteration of the `ingestCustomers` loop: look up by natural key,
update in place when found, otherwise create with a fresh internal id.
Returns the new store and whether the row was created. -/
def ingestCustomerStep (tid : String) (s : Store) (c : ShopifyCustomer) :
    Store × Bool :=
  match s.findCustomer tid c.id with
  | some ex =>
      ({ s with customers :=
          s.customers.map (fun r => if r.id = ex.id then applyCustomerData c r else r) },
        false)
  | none =>
      ({ s with
          customers := s.customers ++ [customerData c tid s.nextId]
          nextId := s.nextId + 1 },
        true)

/-- `IngestionService.ingestCustomers` over an already-fetched remote
collection: fold the per-record step, counting creates and updates. -/
def ingestCustomers (tid : String) (remote : List ShopifyCustomer) (s : Store) :
    Store × Counts :=
  match remote with
  | [] => (s, ⟨0, 0⟩)
  | c :: rest =>
      let step := ingestCustomerStep tid s c
      let next := ingestCustomers tid rest step.1
      (next.1,
        if step.2 then ⟨next.2.created + 1, next.2.updated⟩
        else ⟨next.2.created, next.2.updated + 1⟩)

/-- One iteration of the `ingestProducts` loop. -/
def ingestProductStep (tid : String) (s : Store) (p : ShopifyProduct) :
    Store × Bool :=
  match s.findProduct tid p.id with
  | some ex =>
      ({ s with products :=
          s.products.map (fun r => if r.id = ex.id then applyProductData p r else r) },
        false)
  | none =>
      ({ s with
          products := s.products ++ [productData p tid s.nextId]
          nextId := s.nextId + 1 },
        true)

/-- `IngestionService.ingestProducts` over an already-fetched remote
collection. -/
def ingestProducts (tid : String) (remote : List ShopifyProduct) (s : Store) :
    Store × Counts :=
  match remote with
  | [] => (s, ⟨0, 0⟩)
  | p :: rest =>
      let step := ingestProductStep tid s p
      let next := ingestProducts tid rest step.1
      (next.1,
        if step.2 then ⟨next.2.created + 1, next.2.updated⟩
        else ⟨next.2.created, next.2.updated + 1⟩)

/-- Resolve an order's customer reference (ingestion.service.ts lines
135–147): only a truthy `customer.id` is looked up; a missing row resolves to
null rather than failing. -/
def resolveCustomerId (tid : String) (s : Store) (o : ShopifyOrder) : Option Nat :=
  if jsTruthy o.customer then
    match o.customer with
    | some cid => (s.findCustomer tid cid).map (·.id)
    | none => none
  else none

/-- Resolve a line item's product reference (ingestion.service.ts lines
193–204): only a truthy `product_id` is looked up; a missing row resolves to
null rather than failing. -/
def resolveProductId (tid : String) (s : Store) (item : ShopifyLineItem) :
    Option Nat :=
  if jsTruthy item.product_id then
    match item.product_id with
    | some pid => (s.findProduct tid pid).map (·.id)
    | none => none
  else none

/-- Create one order item: resolve the product reference, then append the
row. -/
def ingestItemStep (tid : String) (oid : Nat) (s : Store) (item : ShopifyLineItem) :
    Store :=
  let productId : Option Nat := resolveProductId tid s item
  { s with
      orderItems := s.orderItems ++ [orderItemData item oid productId s.nextId]
      nextId := s.nextId + 1 }

/-- The item block of the `ingestOrders` loop (ingestion.service.ts lines
184–220): only when the remote line-item list is non-empty, delete all stored
items of the order and recreate the current set. -/
def ingestOrderItems (tid : String) (oid : Nat) (items : List ShopifyLineItem)
    (s : Store) : Store :=
  if items.isEmpty then s
  else
    let s1 := { s with orderItems :=
                  s.orderItems.filter (fun it => decide (¬ it.orderId = oid)) }
    items.foldl (ingestItemStep tid oid) s1

/-- One iteration of the `ingestOrders` loop: resolve the customer reference,
upsert the order row, then run the item block against the row's id. -/
def ingestOrderStep (tid : String) (s : Store) (o : ShopifyOrder) :
    Store × Bool :=
  let customerId := resolveCustomerId tid s o
  match s.findOrder tid o.id with
  | some ex =>
      let s1 := { s with orders :=
                    s.orders.map (fun r =>
                      if r.id = ex.id then applyOrderData o customerId r else r) }
      (ingestOrderItems tid ex.id o.line_items s1, false)
  | none =>
      let oid := s.nextId
      let s1 := { s with
          orders := s.orders ++ [orderData o customerId tid oid]
          nextId := s.nextId + 1 }
      (ingestOrderItems tid oid o.line_items s1, true)

/-- `IngestionService.ingestOrders` over an already-fetched remote
collection. -/
def ingestOrders (tid : String) (remote : List ShopifyOrder) (s : Store) :
    Store × Counts :=
  match remote with
  | [] => (s, ⟨0, 0⟩)
  | o :: rest =>
      let step := ingestOrderStep tid s o
      let next := ingestOrders tid rest step.1
      (next.1,
        if step.2 then ⟨next.2.created + 1, next.2.updated⟩
        else ⟨next.2.created, next.2.updated + 1⟩)

/-! ### Derived notions used by the statements -/

/-- The natural-key predicate on customer rows. -/
def customerKeyP (tid sid : String) : CustomerRow → Bool :=
  fun r => decide (r.tenantId = tid ∧ r.shopifyId = sid)

/-- The natural-key predicate on product rows. -/
def productKeyP (tid sid : String) : ProductRow → Bool :=
  fun r => decide (r.tenantId = tid ∧ r.shopifyId = sid)

/-- The natural-key predicate on order rows. -/
def orderKeyP (tid sid : String) : OrderRow → Bool :=
  fun r => decide (r.tenantId = tid ∧ r.shopifyId = sid)

/-- Number of customer rows carrying a given natural key. -/
def countCustomerKey (s : Store) (tid sid : String) : Nat :=
  s.customers.countP (customerKeyP tid sid)

/-- Number of product rows carrying a given natural key. -/
def countProductKey (s : Store) (tid sid : String) : Nat :=
  s.products.countP (productKeyP tid sid)

/-- Number of order rows carrying a given natural key. -/
def countOrderKey (s : Store) (tid sid : String) : Nat :=
  s.orders.countP (orderKeyP tid sid)

/-- The payload of an order-item row: every stored column except the two
internal ids (`id`, `orderId`). -/
structure OrderItemContent where
  productId : Option Nat
  shopifyProductId : Option String
  title : String
  quantity : Int
  price : Rat
  totalDiscount : Option JSNum
  sku : Option String
  variantTitle : Option String
deriving DecidableEq, Repr

/-- Project an order-item row to its payload. -/
def OrderItemRow.content (it : OrderItemRow) : OrderItemContent :=
  ⟨it.productId, it.shopifyProductId, it.title, it.quantity, it.price,
    it.totalDiscount, it.sku, it.variantTitle⟩

/-- The payload the item block would store for a remote line item given the
product rows of store `s`. -/
def expectedItemContent (tid : String) (s : Store) (item : ShopifyLineItem) :
    OrderItemContent :=
  (orderItemData item 0 (resolveProductId tid s item) 0).content

/-! ### Concrete instances used by closed statements -/

/-- A minimal remote customer. -/
def sampleCustomer (i spent : String) : ShopifyCustomer :=
  { id := i, total_spent := spent }

/-- A minimal remote order. -/
def sampleOrder (i total : String) : ShopifyOrder :=
  { id := i, total_price := total }

/-- A stored order row for the C2 scenario (internal id 0, tenant `t1`,
remote id `O1`). -/
def cexOrderRow : OrderRow :=
  { id := 0, tenantId := "t1", shopifyId := "O1", orderNumber := none
    email := none, financialStatus := none, fulfillmentStatus := none
    totalPrice := 5, subtotalPrice := none, totalTax := none
    totalDiscounts := none, currency := "USD", customerId := none
    shopifyCreatedAt := none, shopifyUpdatedAt := none }

/-- A stored order item belonging to `cexOrderRow`, corresponding to a line
item the remote side has since removed. -/
def cexStaleItem : OrderItemRow :=
  { id := 1, orderId := 0, productId := none, shopifyProductId := none
    title := "removed line", quantity := 1, price := 5, totalDiscount := none
    sku := none, variantTitle := none }

/-- A store holding `cexOrderRow` with the stale `cexStaleItem`. -/
def cexStore : Store :=
  { customers := [], products := [], orders := [cexOrderRow]
    orderItems := [cexStaleItem], nextId := 2 }

/-- The same remote order delivered with an empty line-item set. -/
def cexEmptyItemsOrder : ShopifyOrder :=
  { id := "O1", total_price := "5.00", line_items := [] }


/-- A remote product whose only variant has an unparsable price string. -/
def cexBadPriceProduct : ShopifyProduct :=
  { id := "P1", title := "widget", variants := [{ price := "not-a-number" }] }

/-- Ten remote customers, one of which (`C10`) has an unparsable
`total_spent`. -/
def tenCustomers : List ShopifyCustomer :=
  [sampleCustomer "C1" "1.00", sampleCustomer "C2" "2.00",
    sampleCustomer "C3" "3.00", sampleCustomer "C4" "4.00",
    sampleCustomer "C5" "5.00", sampleCustomer "C6" "6.00",
    sampleCustomer "C7" "7.00", sampleCustomer "C8" "8.00",
    sampleCustomer "C9" "9.00", sampleCustomer "C10" "not-a-number"]


/-! ### Orchestrator (`IngestionService.ingestAll`, lines 227–239) -/

/-- The three entity-type ingestions coordinated by `ingestAll`. -/
inductive EntityTask where
  | customers : EntityTask
  | products : EntityTask
  | orders : EntityTask
deriving DecidableEq, Repr

/-- Start/finish events of one entity-type ingestion inside `ingestAll`. -/
inductive SyncEvent where
  | start : EntityTask → SyncEvent
  | finish : EntityTask → SyncEvent
deriving DecidableEq, Repr

/-- Execution trace of `ingestAll`, which runs
`Promise.all([this.ingestCustomers(), this.ingestProducts(), this.ingestOrders()])`.
JS `Promise.all` invokes the three async thunks synchronously in array order;
each runs only up to its first `await` (its initial remote collection fetch)
before control returns, so all three ingestions have started — customers,
products, orders, in that order — before the event loop can deliver any fetch
response, and hence before any of them can finish.  The order in which they
then finish depends on I/O timing and is the `completionOrder` parameter
(one completion per task, in any order). -/
def ingestAllTrace (completionOrder : List EntityTask) : List SyncEvent :=
  [SyncEvent.start EntityTask.customers, SyncEvent.start EntityTask.products,
    SyncEvent.start EntityTask.orders] ++ completionOrder.map SyncEvent.finish

/-- Aggregate result of `ingestAll`. -/
structure IngestAllResult where
  customers : Counts
  products : Counts
  orders : Counts
deriving DecidableEq, Repr

/-! ### Scheduler (`src/scheduler/sync.scheduler.ts`) -/

/-- A `tenants` table row (the fields the scheduler and webhook route use). -/
structure Tenant where
  id : String
  shopDomain : String
  accessToken : String
deriving DecidableEq, Repr

/-- Outcome reported for one tenant by the scheduled cycle. -/
inductive TenantSyncOutcome where
  | synced : String → IngestAllResult → TenantSyncOutcome
  | failed : String → String → TenantSyncOutcome
deriving DecidableEq, Repr

/-- Body of the per-tenant loop iteration with its own `try`/`catch`
(sync.scheduler.ts lines 18–33): a throwing `ingestAll` is caught and turned
into a logged failure for that tenant alone.  `ingestAllFor` models the
construction of the tenant's `IngestionService` plus its `ingestAll` call,
which may throw (e.g. a revoked credential surfacing as a fetch error). -/
def syncTenant (ingestAllFor : Tenant → Except String IngestAllResult)
    (t : Tenant) : TenantSyncOutcome :=
  match ingestAllFor t with
  | Except.ok r => TenantSyncOutcome.synced t.shopDomain r
  | Except.error e => TenantSyncOutcome.failed t.shopDomain e

/-- The `for (const tenant of tenants)` loop of one scheduled sync cycle in
`scheduleDataSync`: every tenant is processed in order, each iteration
catching its own failure. -/
def scheduleDataSyncCycle (ingestAllFor : Tenant → Except String IngestAllResult) :
    List Tenant → List TenantSyncOutcome
  | [] => []
  | t :: rest => syncTenant ingestAllFor t :: scheduleDataSyncCycle ingestAllFor rest

/-! ### Remote collection client (`ShopifyService`, paginated fetchers) -/

/-- A transport-level failure of one page request (network error or non-2xx
response surfaced by the HTTP client). -/
inductive TransportError where
  | httpError : Nat → TransportError
  | networkError : String → TransportError
deriving DecidableEq, Repr

/-- One page response: the records of the page and the `page_info` token of
the `rel="next"` entry of the `Link` response header, when that header is
present and carries a next link (extracted by the regex at
shopify.service.ts line 141; `none` otherwise). -/
structure PageResponse (α : Type) where
  records : List α
  linkNext : Option String
deriving DecidableEq, Repr

/-- The `do … while (pageInfo)` cursor loop shared by `getCustomers`,
`getProducts` and `getOrders`: request a page for the current cursor, append
its records, extract the next cursor from the link header, and continue while
a cursor remains.  `fetch` models `this.client.get` with the current
`page_info` param; a rejected request propagates immediately — the client
performs no retry.  The source loop carries no fuel (it runs until the cursor
chain ends), so the model takes fuel and every theorem supplies fuel at least
the chain length. -/
def fetchAllPages {α : Type}
    (fetch : Option String → Except TransportError (PageResponse α)) :
    Nat → Option String → List α → Except TransportError (List α)
  | 0, _, acc => Except.ok acc
  | fuel + 1, cursor, acc =>
    match fetch cursor with
    | Except.error e => Except.error e
    | Except.ok page =>
      match page.linkNext with
      | none => Except.ok (acc ++ page.records)
      | some tok => fetchAllPages fetch fuel (some tok) (acc ++ page.records)

/-- `ShopifyService.getCustomers`: follow the cursor chain for
`/customers.json` and return the fully materialized collection. -/
def ShopifyService.getCustomers
    (fetch : Option String → Except TransportError (PageResponse ShopifyCustomer))
    (fuel : Nat) : Except TransportError (List ShopifyCustomer) :=
  fetchAllPages fetch fuel none []

/-- `ShopifyService.getProducts`: same cursor loop for `/products.json`. -/
def ShopifyService.getProducts
    (fetch : Option String → Except TransportError (PageResponse ShopifyProduct))
    (fuel : Nat) : Except TransportError (List ShopifyProduct) :=
  fetchAllPages fetch fuel none []

/-- `ShopifyService.getOrders`: same cursor loop for `/orders.json`. -/
def ShopifyService.getOrders
    (fetch : Option String → Except TransportError (PageResponse ShopifyOrder))
    (fuel : Nat) : Except TransportError (List ShopifyOrder) :=
  fetchAllPages fetch fuel none []

/-- `FetchChain fetch cur n recs`: following `rel="next"` cursors from `cur`
traverses `n` pages, every request succeeds, and concatenating their records
in page order yields `recs`. -/
inductive FetchChain {α : Type}
    (fetch : Option String → Except TransportError (PageResponse α)) :
    Option String → Nat → List α → Prop where
  | last : ∀ cur recs, fetch cur = Except.ok ⟨recs, none⟩ →
      FetchChain fetch cur 1 recs
  | step : ∀ cur recs tok n rest,
      fetch cur = Except.ok ⟨recs, some tok⟩ →
      FetchChain fetch (some tok) n rest →
      FetchChain fetch cur (n + 1) (recs ++ rest)

/-- `FetchFails fetch cur n e`: following cursors from `cur`, the request for
the page after `n` successful pages fails with transport error `e`. -/
inductive FetchFails {α : Type}
    (fetch : Option String → Except TransportError (PageResponse α)) :
    Option String → Nat → TransportError → Prop where
  | here : ∀ cur e, fetch cur = Except.error e → FetchFails fetch cur 0 e
  | later : ∀ cur recs tok n e,
      fetch cur = Except.ok ⟨recs, some tok⟩ →
      FetchFails fetch (some tok) n e →
      FetchFails fetch cur (n + 1) e

/-! ### Single-record fetchers (`ShopifyService.getCustomer` / `getProduct` /
`getOrder`) -/

/-- `ShopifyService.getCustomer`: the raw outcome of
`GET /customers/:id.json` is either a transport error or a response whose
`data.customer` may be absent; the `try`/`catch` plus `|| null` map every
failure and every missing record to null. -/
def ShopifyService.getCustomer
    (raw : Except TransportError (Option ShopifyCustomer)) :
    Option ShopifyCustomer :=
  match raw with
  | Except.error _ => none
  | Except.ok r => r

/-- `ShopifyService.getProduct`, same shape. -/
def ShopifyService.getProduct
    (raw : Except TransportError (Option ShopifyProduct)) :
    Option ShopifyProduct :=
  match raw with
  | Except.error _ => none
  | Except.ok r => r

/-- `ShopifyService.getOrder`, same shape. -/
def ShopifyService.getOrder
    (raw : Except TransportError (Option ShopifyOrder)) :
    Option ShopifyOrder :=
  match raw with
  | Except.error _ => none
  | Except.ok r => r

/-! ### Webhook route (`src/routes/webhook.routes.ts`) -/

/-- `verifyShopifyWebhook` (lines 9–13): recompute the base64-encoded
HMAC-SHA256 of the raw body keyed with the secret and compare it with the
header-supplied signature.  The crypto primitive (`crypto.createHmac`) is an
external library call and is passed in as `hmacSHA256Base64 secret body`. -/
def verifyShopifyWebhook (hmacSHA256Base64 : String → String → String)
    (body signature secret : String) : Bool :=
  decide (hmacSHA256Base64 secret body = signature)

/-- The inbound webhook request: the three Shopify headers (absent when not
sent) and the raw body. -/
structure WebhookRequest where
  signature : Option String
  shopDomain : Option String
  topic : Option String
  body : String
deriving DecidableEq, Repr

/-- HTTP statuses the route responds with. -/
inductive HttpStatus where
  | ok200 : HttpStatus
  | badRequest400 : HttpStatus
  | unauthorized401 : HttpStatus
  | notFound404 : HttpStatus
  | serverError500 : HttpStatus
deriving DecidableEq, Repr

/-- An ingestion invocation performed by the webhook handlers. -/
inductive SyncAction where
  | orderResync : SyncAction
  | customerResync : SyncAction
  | productResync : SyncAction
deriving DecidableEq, Repr

/-- The parsed JSON body as consumed by the handlers (only `data.id` is
read, by `handleOrderWebhook`). -/
structure WebhookPayload where
  id : Option String
deriving DecidableEq, Repr

/-- `handleOrderWebhook` (lines 79–94): fetch the single order named by the
payload; only when that fetch yields a record is `ingestOrders` invoked.  A
payload without an id makes `orderData.id.toString()` throw, which the
function's own `catch` swallows (no ingestion).  Returns the ingestion
invocations performed. -/
def handleOrderWebhook
    (getOrderRaw : String → Except TransportError (Option ShopifyOrder))
    (payload : WebhookPayload) : List SyncAction :=
  match payload.id with
  | none => []
  | some oid =>
    match ShopifyService.getOrder (getOrderRaw oid) with
    | none => []
    | some _ => [SyncAction.orderResync]

/-- The `POST /shopify` route (lines 16–77): require the three headers, look
the tenant up by shop domain, verify the signature with the tenant's stored
access token, parse the body, and dispatch on the topic.  `parseJson` models
`JSON.parse` (`none` = throws, caught by the outer catch as a 500).  Returns
the HTTP status and the ingestion invocations performed. -/
def webhookShopifyRoute (hmacSHA256Base64 : String → String → String)
    (parseJson : String → Option WebhookPayload)
    (getOrderRaw : String → Except TransportError (Option ShopifyOrder))
    (tenants : List Tenant) (req : WebhookRequest) :
    HttpStatus × List SyncAction :=
  if ¬ (jsTruthy req.signature ∧ jsTruthy req.shopDomain ∧ jsTruthy req.topic) then
    (HttpStatus.badRequest400, [])
  else
    match tenants.find? (fun t => decide (t.shopDomain = req.shopDomain.getD "")) with
    | none => (HttpStatus.notFound404, [])
    | some tenant =>
      if ¬ verifyShopifyWebhook hmacSHA256Base64 req.body (req.signature.getD "")
          tenant.accessToken then
        (HttpStatus.unauthorized401, [])
      else
        match parseJson req.body with
        | none => (HttpStatus.serverError500, [])
        | some payload =>
          let topic := req.topic.getD ""
          if topic = "orders/create" ∨ topic = "orders/updated" ∨
              topic = "orders/paid" then
            (HttpStatus.ok200, handleOrderWebhook getOrderRaw payload)
          else if topic = "customers/create" ∨ topic = "customers/update" then
            (HttpStatus.ok200, [SyncAction.customerResync])
          else if topic = "products/create" ∨ topic = "products/update" then
            (HttpStatus.ok200, [SyncAction.productResync])
          else
            (HttpStatus.ok200, [])

/-- Effect of a list of ingestion invocations on the store (each resync runs
the corresponding full-collection ingestion); the empty list leaves the store
untouched. -/
def applySyncActions (tid : String) (remoteC : List ShopifyCustomer)
    (remoteP : List ShopifyProduct) (remoteO : List ShopifyOrder) :
    List SyncAction → Store → Store
  | [], s => s
  | a :: rest, s =>
    let s1 := match a with
      | SyncAction.orderResync => (ingestOrders tid remoteO s).1
      | SyncAction.customerResync => (ingestCustomers tid remoteC s).1
      | SyncAction.productResync => (ingestProducts tid remoteP s).1
    applySyncActions tid remoteC remoteP remoteO rest s1

/-- A two-page remote customer collection: the first page's link header
carries a `rel="next"` cursor, the second has none. -/
def pageFetchTwo : Option String → Except TransportError (PageResponse ShopifyCustomer) :=
  fun cur =>
    match cur with
    | none => Except.ok ⟨[sampleCustomer "C1" "1.00"], some "cursor2"⟩
    | some tok =>
      if tok = "cursor2" then Except.ok ⟨[sampleCustomer "C2" "2.00"], none⟩
      else Except.error (TransportError.httpError 404)

/-- A remote endpoint whose every page request fails at the transport level. -/
def pageFetchFailing : Option String → Except TransportError (PageResponse ShopifyCustomer) :=
  fun _ => Except.error (TransportError.networkError "ECONNRESET")

/-! ## Generic list lemmas -/

theorem find?_append_none {α : Type} (p : α → Bool) (l₁ l₂ : List α)
    (h : l₁.find? p = none) : (l₁ ++ l₂).find? p = l₂.find? p := by
  induction l₁ with
  | nil => rfl
  | cons x xs ih =>
    cases hx : p x with
    | true => rw [List.find?_cons_of_pos _ hx] at h; exact absurd h (by simp)
    | false =>
      rw [List.find?_cons_of_neg _ (by simp [hx])] at h
      rw [List.cons_append, List.find?_cons_of_neg _ (by simp [hx])]
      exact ih h

theorem find?_append_some {α : Type} (p : α → Bool) (l₁ l₂ : List α) (r : α)
    (h : l₁.find? p = some r) : (l₁ ++ l₂).find? p = some r := by
  induction l₁ with
  | nil => exact absurd h (by simp)
  | cons x xs ih =>
    cases hx : p x with
    | true =>
      rw [List.find?_cons_of_pos _ hx] at h
      rw [List.cons_append, List.find?_cons_of_pos _ hx]
      exact h
    | false =>
      rw [List.find?_cons_of_neg _ (by simp [hx])] at h
      rw [List.cons_append, List.find?_cons_of_neg _ (by simp [hx])]
      exact ih h

theorem find?_map_pres {α : Type} (g : α → α) (p : α → Bool) (l : List α)
    (h : ∀ r ∈ l, p (g r) = p r) : (l.map g).find? p = (l.find? p).map g := by
  induction l with
  | nil => rfl
  | cons x xs ih =>
    have hx := h x (by simp)
    cases hpx : p x with
    | true =>
      rw [List.map_cons, List.find?_cons_of_pos _ (hx.trans hpx),
        List.find?_cons_of_pos _ hpx]
      rfl
    | false =>
      rw [List.map_cons, List.find?_cons_of_neg _ (by simp [hx, hpx]),
        List.find?_cons_of_neg _ (by simp [hpx])]
      exact ih (fun r hr => h r (by simp [hr]))

theorem countP_map_pres {α : Type} (g : α → α) (p : α → Bool) (l : List α)
    (h : ∀ r ∈ l, p (g r) = p r) : (l.map g).countP p = l.countP p := by
  induction l with
  | nil => rfl
  | cons x xs ih =>
    have hx := h x (by simp)
    rw [List.map_cons, List.countP_cons, List.countP_cons, hx,
      ih (fun r hr => h r (by simp [hr]))]

theorem countP_pos_iff_find?_isSome {α : Type} (p : α → Bool) (l : List α) :
    0 < l.countP p ↔ (l.find? p).isSome := by
  rw [List.countP_pos_iff, List.find?_isSome]

/-! ## Customer reconciliation lemmas -/

theorem findCustomer_def (s : Store) (tid sid : String) :
    s.findCustomer tid sid = s.customers.find? (customerKeyP tid sid) := rfl

theorem findCustomer_key {s : Store} {tid sid : String} {r : CustomerRow}
    (h : s.findCustomer tid sid = some r) :
    r.tenantId = tid ∧ r.shopifyId = sid ∧ r ∈ s.customers := by
  have hp := List.find?_some h
  have hm := List.mem_of_find?_eq_some h
  simp only [customerKeyP, decide_eq_true_eq] at hp
  exact ⟨hp.1, hp.2, hm⟩

theorem customerKeyP_congr {a b : CustomerRow} (tid sid : String)
    (h1 : a.tenantId = b.tenantId) (h2 : a.shopifyId = b.shopifyId) :
    customerKeyP tid sid a = customerKeyP tid sid b := by
  simp [customerKeyP, h1, h2]

theorem applyCustomerData_id (c : ShopifyCustomer) (r : CustomerRow) :
    (applyCustomerData c r).id = r.id := rfl

theorem applyCustomerData_tenantId (c : ShopifyCustomer) (r : CustomerRow) :
    (applyCustomerData c r).tenantId = r.tenantId := rfl

theorem applyCustomerData_shopifyId (c : ShopifyCustomer) (r : CustomerRow) :
    (applyCustomerData c r).shopifyId = c.id := rfl

/-- With nodup internal ids, the update-map of a found-case customer step
preserves every row's natural key pointwise. -/
theorem customerUpdate_key_pres {s : Store} {tid : String} {c : ShopifyCustomer}
    {ex : CustomerRow} (hN : (s.customers.map (·.id)).Nodup)
    (hfind : s.findCustomer tid c.id = some ex) (tid' sid' : String) :
    ∀ r ∈ s.customers,
      customerKeyP tid' sid' (if r.id = ex.id then applyCustomerData c r else r) =
        customerKeyP tid' sid' r := by
  intro r hr
  by_cases hid : r.id = ex.id
  · have hex := findCustomer_key hfind
    have hre : r = ex := List.inj_on_of_nodup_map hN hr hex.2.2 hid
    subst hre
    rw [if_pos hid]
    exact customerKeyP_congr tid' sid' (applyCustomerData_tenantId c r)
      ((applyCustomerData_shopifyId c r).trans hex.2.1.symm)
  · rw [if_neg hid]

theorem ingestCustomerStep_found {s : Store} {tid : String} {c : ShopifyCustomer}
    {ex : CustomerRow} (h : s.findCustomer tid c.id = some ex) :
    ingestCustomerStep tid s c =
      ({ s with customers :=
          s.customers.map (fun r => if r.id = ex.id then applyCustomerData c r else r) },
        false) := by
  simp [ingestCustomerStep, h]

theorem ingestCustomerStep_none {s : Store} {tid : String} {c : ShopifyCustomer}
    (h : s.findCustomer tid c.id = none) :
    ingestCustomerStep tid s c =
      ({ s with
          customers := s.customers ++ [customerData c tid s.nextId]
          nextId := s.nextId + 1 },
        true) := by
  simp [ingestCustomerStep, h]

theorem ingestCustomerStep_find_self_found {s : Store} {tid : String}
    {c : ShopifyCustomer} {ex : CustomerRow}
    (hN : (s.customers.map (·.id)).Nodup)
    (h : s.findCustomer tid c.id = some ex) :
    (ingestCustomerStep tid s c).1.findCustomer tid c.id =
      some (applyCustomerData c ex) := by
  rw [ingestCustomerStep_found h, findCustomer_def]
  simp only
  rw [find?_map_pres _ _ _ (customerUpdate_key_pres hN h tid c.id),
    ← findCustomer_def, h]
  simp

theorem ingestCustomerStep_find_self_none {s : Store} {tid : String}
    {c : ShopifyCustomer} (h : s.findCustomer tid c.id = none) :
    (ingestCustomerStep tid s c).1.findCustomer tid c.id =
      some (customerData c tid s.nextId) := by
  have h' : s.customers.find? (customerKeyP tid c.id) = none := h
  rw [ingestCustomerStep_none h, findCustomer_def]
  simp only
  rw [find?_append_none _ _ _ h']
  simp [List.find?_cons, customerKeyP, customerData]

theorem ingestCustomerStep_find_other {s : Store} {tid : String}
    {c : ShopifyCustomer} (hN : (s.customers.map (·.id)).Nodup)
    {tid' sid' : String} (hk : ¬ (tid' = tid ∧ sid' = c.id)) :
    (ingestCustomerStep tid s c).1.findCustomer tid' sid' =
      s.findCustomer tid' sid' := by
  cases hf : s.findCustomer tid c.id with
  | some ex =>
    rw [ingestCustomerStep_found hf]
    show (s.customers.map _).find? (customerKeyP tid' sid') = _
    rw [find?_map_pres _ _ _ (customerUpdate_key_pres hN hf tid' sid'),
      ← findCustomer_def]
    cases hf2 : s.findCustomer tid' sid' with
    | none => rfl
    | some r =>
      have hr := findCustomer_key hf2
      have hex := findCustomer_key hf
      rw [Option.map_some']
      by_cases hid : r.id = ex.id
      · have hre : r = ex := List.inj_on_of_nodup_map hN hr.2.2 hex.2.2 hid
        subst hre
        exact absurd ⟨hr.1.symm.trans hex.1, hr.2.1.symm.trans hex.2.1⟩ hk
      · simp [hid]
  | none =>
    have hf' : s.customers.find? (customerKeyP tid c.id) = none := hf
    rw [ingestCustomerStep_none hf, findCustomer_def]
    simp only
    cases hf2 : s.findCustomer tid' sid' with
    | some r => exact find?_append_some _ _ _ _ hf2
    | none =>
      have hf2' : s.customers.find? (customerKeyP tid' sid') = none := hf2
      rw [find?_append_none _ _ _ hf2']
      have hfalse : customerKeyP tid' sid' (customerData c tid s.nextId) = false := by
        simp only [customerKeyP, customerData, decide_eq_false_iff_not]
        intro hcon
        exact hk ⟨hcon.1.symm, hcon.2.symm⟩
      simp [List.find?_cons, hfalse]

theorem ingestCustomerStep_count_found {s : Store} {tid : String}
    {c : ShopifyCustomer} {ex : CustomerRow}
    (hN : (s.customers.map (·.id)).Nodup)
    (h : s.findCustomer tid c.id = some ex) (tid' sid' : String) :
    countCustomerKey (ingestCustomerStep tid s c).1 tid' sid' =
      countCustomerKey s tid' sid' := by
  rw [ingestCustomerStep_found h]
  exact countP_map_pres _ _ _ (customerUpdate_key_pres hN h tid' sid')

theorem ingestCustomerStep_count_none_self {s : Store} {tid : String}
    {c : ShopifyCustomer} (h : s.findCustomer tid c.id = none) :
    countCustomerKey (ingestCustomerStep tid s c).1 tid c.id =
      countCustomerKey s tid c.id + 1 := by
  rw [ingestCustomerStep_none h]
  show (s.customers ++ [customerData c tid s.nextId]).countP _ = _
  rw [List.countP_append]
  simp [List.countP_cons, customerKeyP, customerData, countCustomerKey]

theorem ingestCustomerStep_count_none_other {s : Store} {tid : String}
    {c : ShopifyCustomer} (h : s.findCustomer tid c.id = none)
    {tid' sid' : String} (hk : ¬ (tid' = tid ∧ sid' = c.id)) :
    countCustomerKey (ingestCustomerStep tid s c).1 tid' sid' =
      countCustomerKey s tid' sid' := by
  rw [ingestCustomerStep_none h]
  show (s.customers ++ [customerData c tid s.nextId]).countP _ = _
  rw [List.countP_append]
  have hfalse : customerKeyP tid' sid' (customerData c tid s.nextId) = false := by
    simp only [customerKeyP, customerData, decide_eq_false_iff_not]
    intro hcon
    exact hk ⟨hcon.1.symm, hcon.2.symm⟩
  simp [List.countP_cons, hfalse, countCustomerKey]

theorem ingestCustomerStep_length {s : Store} {tid : String}
    {c : ShopifyCustomer} :
    (ingestCustomerStep tid s c).1.customers.length =
      (if (s.findCustomer tid c.id).isSome then s.customers.length
        else s.customers.length + 1) := by
  cases hf : s.findCustomer tid c.id with
  | some ex => rw [ingestCustomerStep_found hf]; simp
  | none => rw [ingestCustomerStep_none hf]; simp

theorem ingestCustomerStep_created {s : Store} {tid : String}
    {c : ShopifyCustomer} :
    (ingestCustomerStep tid s c).2 = (s.findCustomer tid c.id).isNone := by
  cases hf : s.findCustomer tid c.id with
  | some ex => rw [ingestCustomerStep_found hf]; rfl
  | none => rw [ingestCustomerStep_none hf]; rfl

theorem ingestCustomerStep_rest {s : Store} {tid : String} {c : ShopifyCustomer} :
    (ingestCustomerStep tid s c).1.products = s.products ∧
    (ingestCustomerStep tid s c).1.orders = s.orders ∧
    (ingestCustomerStep tid s c).1.orderItems = s.orderItems ∧
    s.nextId ≤ (ingestCustomerStep tid s c).1.nextId := by
  cases hf : s.findCustomer tid c.id with
  | some ex => rw [ingestCustomerStep_found hf]; exact ⟨rfl, rfl, rfl, le_refl _⟩
  | none => rw [ingestCustomerStep_none hf]; exact ⟨rfl, rfl, rfl, Nat.le_succ _⟩

theorem ingestCustomerStep_WF {s : Store} {tid : String} {c : ShopifyCustomer}
    (hW : s.WF) : (ingestCustomerStep tid s c).1.WF := by
  obtain ⟨hp, ho, hi, hn⟩ := @ingestCustomerStep_rest s tid c
  have hcust : ((ingestCustomerStep tid s c).1.customers.map (·.id)).Nodup ∧
      ∀ r ∈ (ingestCustomerStep tid s c).1.customers,
        r.id < (ingestCustomerStep tid s c).1.nextId := by
    cases hf : s.findCustomer tid c.id with
    | some ex =>
      have hc : (ingestCustomerStep tid s c).1.customers =
          s.customers.map (fun r => if r.id = ex.id then applyCustomerData c r else r) := by
        rw [ingestCustomerStep_found hf]
      have hid_pt : ∀ r0 : CustomerRow,
          (if r0.id = ex.id then applyCustomerData c r0 else r0).id = r0.id := by
        intro r0
        by_cases hid : r0.id = ex.id <;> simp [hid, applyCustomerData_id]
      constructor
      · rw [hc, List.map_map]
        have : s.customers.map ((fun x : CustomerRow => x.id) ∘
            (fun r => if r.id = ex.id then applyCustomerData c r else r)) =
            s.customers.map (fun x => x.id) := by
          apply List.map_congr_left
          intro r _
          exact hid_pt r
        rw [this]
        exact hW.customersNodup
      · intro r hr
        rw [hc] at hr
        obtain ⟨r0, hr0, rfl⟩ := List.mem_map.mp hr
        rw [hid_pt r0]
        exact lt_of_lt_of_le (hW.customersLt r0 hr0) hn
    | none =>
      have hc : (ingestCustomerStep tid s c).1.customers =
          s.customers ++ [customerData c tid s.nextId] := by
        rw [ingestCustomerStep_none hf]
      have hn2 : (ingestCustomerStep tid s c).1.nextId = s.nextId + 1 := by
        rw [ingestCustomerStep_none hf]
      have hfresh : s.nextId ∉ s.customers.map (·.id) := by
        intro hmem
        obtain ⟨r, hr, hid⟩ := List.mem_map.mp hmem
        exact absurd hid (Nat.ne_of_lt (hW.customersLt r hr))
      constructor
      · rw [hc, List.map_append]
        simp only [List.map_cons, List.map_nil]
        rw [List.nodup_append]
        refine ⟨hW.customersNodup, List.nodup_singleton _, ?_⟩
        simp only [List.disjoint_singleton]
        exact hfresh
      · intro r hr
        rw [hc] at hr
        rw [hn2]
        rcases List.mem_append.mp hr with hr | hr
        · exact Nat.lt_succ_of_lt (hW.customersLt r hr)
        · simp only [List.mem_singleton] at hr
          subst hr
          exact Nat.lt_succ_self _
  exact ⟨hcust.1, hcust.2,
    by rw [hp]; exact hW.productsNodup,
    fun r hr => by rw [hp] at hr; exact lt_of_lt_of_le (hW.productsLt r hr) hn,
    by rw [ho]; exact hW.ordersNodup,
    fun r hr => by rw [ho] at hr; exact lt_of_lt_of_le (hW.ordersLt r hr) hn,
    by rw [hi]; exact hW.orderItemsNodup,
    fun r hr => by rw [hi] at hr; exact lt_of_lt_of_le (hW.orderItemsLt r hr) hn⟩

theorem ingestCustomerStep_presence_mono {s : Store} {tid : String}
    {c : ShopifyCustomer} (hN : (s.customers.map (·.id)).Nodup)
    {tid' sid' : String} (h : (s.findCustomer tid' sid').isSome) :
    ((ingestCustomerStep tid s c).1.findCustomer tid' sid').isSome := by
  by_cases hk : tid' = tid ∧ sid' = c.id
  · cases hf : s.findCustomer tid c.id with
    | some ex => rw [hk.1, hk.2, ingestCustomerStep_find_self_found hN hf]; rfl
    | none => rw [hk.1, hk.2, ingestCustomerStep_find_self_none hf]; rfl
  · rw [ingestCustomerStep_find_other hN hk]
    exact h

theorem ingestCustomers_fst_products {tid : String} {remote : List ShopifyCustomer}
    {s : Store} :
    (ingestCustomers tid remote s).1.products = s.products ∧
    (ingestCustomers tid remote s).1.orders = s.orders ∧
    (ingestCustomers tid remote s).1.orderItems = s.orderItems := by
  induction remote generalizing s with
  | nil => exact ⟨rfl, rfl, rfl⟩
  | cons c rest ih =>
    obtain ⟨hp, ho, hi, _⟩ :=
      @ingestCustomerStep_rest s tid c
    exact ⟨(ih.1).trans hp, (ih.2.1).trans ho, (ih.2.2).trans hi⟩

theorem ingestCustomers_WF {tid : String} {remote : List ShopifyCustomer}
    {s : Store} (hW : s.WF) : (ingestCustomers tid remote s).1.WF := by
  induction remote generalizing s with
  | nil => exact hW
  | cons c rest ih => exact ih (ingestCustomerStep_WF hW)

theorem ingestCustomers_presence_mono {tid : String}
    {remote : List ShopifyCustomer} {s : Store} (hW : s.WF)
    {tid' sid' : String} (h : (s.findCustomer tid' sid').isSome) :
    ((ingestCustomers tid remote s).1.findCustomer tid' sid').isSome := by
  induction remote generalizing s with
  | nil => exact h
  | cons c rest ih =>
    exact ih (ingestCustomerStep_WF hW)
      (ingestCustomerStep_presence_mono hW.customersNodup h)

theorem ingestCustomers_mem_present {tid : String}
    {remote : List ShopifyCustomer} {s : Store} (hW : s.WF)
    {c : ShopifyCustomer} (hc : c ∈ remote) :
    ((ingestCustomers tid remote s).1.findCustomer tid c.id).isSome := by
  induction remote generalizing s with
  | nil => exact absurd hc (List.not_mem_nil c)
  | cons c0 rest ih =>
    rcases List.mem_cons.mp hc with hc | hc
    · subst hc
      show ((ingestCustomers tid rest
        (ingestCustomerStep tid s c).1).1.findCustomer tid c.id).isSome
      apply ingestCustomers_presence_mono (ingestCustomerStep_WF hW)
      cases hf : s.findCustomer tid c.id with
      | some ex => rw [ingestCustomerStep_find_self_found hW.customersNodup hf]; rfl
      | none => rw [ingestCustomerStep_find_self_none hf]; rfl
    · exact ih (ingestCustomerStep_WF hW) hc

theorem ingestCustomers_all_updates {tid : String}
    {remote : List ShopifyCustomer} {s : Store} (hW : s.WF)
    (hall : ∀ c ∈ remote, (s.findCustomer tid c.id).isSome) :
    (ingestCustomers tid remote s).2 = ⟨0, remote.length⟩ ∧
    (ingestCustomers tid remote s).1.customers.length = s.customers.length := by
  induction remote generalizing s with
  | nil => exact ⟨rfl, rfl⟩
  | cons c rest ih =>
    have hc := hall c (List.mem_cons_self c rest)
    obtain ⟨ex, hex⟩ := Option.isSome_iff_exists.mp hc
    have hstep := ingestCustomerStep_found hex
    have hrest : ∀ c' ∈ rest, ((ingestCustomerStep tid s c).1.findCustomer
        tid c'.id).isSome := fun c' hc' =>
      ingestCustomerStep_presence_mono hW.customersNodup
        (hall c' (List.mem_cons_of_mem c hc'))
    have hih := ih (ingestCustomerStep_WF hW) hrest
    constructor
    · show (if (ingestCustomerStep tid s c).2 then _ else
        (⟨(ingestCustomers tid rest (ingestCustomerStep tid s c).1).2.created,
          (ingestCustomers tid rest (ingestCustomerStep tid s c).1).2.updated + 1⟩
            : Counts)) = _
      rw [ingestCustomerStep_created, hex]
      simp only [Option.isNone_some, if_false, Bool.false_eq_true]
      rw [hih.1]
      rfl
    · show (ingestCustomers tid rest (ingestCustomerStep tid s c).1).1.customers.length = _
      rw [hih.2, ingestCustomerStep_length, hex]
      rfl

theorem ingestCustomers_count_pos {tid : String}
    {remote : List ShopifyCustomer} {s : Store} (hW : s.WF)
    {tid' sid' : String} (h : 0 < countCustomerKey s tid' sid') :
    countCustomerKey (ingestCustomers tid remote s).1 tid' sid' =
      countCustomerKey s tid' sid' := by
  induction remote generalizing s with
  | nil => rfl
  | cons c rest ih =>
    have hstep : countCustomerKey (ingestCustomerStep tid s c).1 tid' sid' =
        countCustomerKey s tid' sid' := by
      cases hf : s.findCustomer tid c.id with
      | some ex => exact ingestCustomerStep_count_found hW.customersNodup hf tid' sid'
      | none =>
        by_cases hkk : tid' = tid ∧ sid' = c.id
        · exfalso
          have hsome : (s.findCustomer tid' sid').isSome :=
            (countP_pos_iff_find?_isSome _ _).mp h
          rw [hkk.1, hkk.2, hf] at hsome
          exact absurd hsome (by simp)
        · exact ingestCustomerStep_count_none_other hf hkk
    have hih := ih (ingestCustomerStep_WF hW) (s := (ingestCustomerStep tid s c).1)
      (hstep ▸ h)
    exact hih.trans hstep

theorem ingestCustomers_count_creates {tid : String}
    {remote : List ShopifyCustomer} {s : Store} (hW : s.WF) {k : String}
    (h0 : s.findCustomer tid k = none) (hk : ∃ c ∈ remote, c.id = k) :
    countCustomerKey (ingestCustomers tid remote s).1 tid k = 1 := by
  induction remote generalizing s with
  | nil => exact absurd hk (by simp)
  | cons c rest ih =>
    have hzero : countCustomerKey s tid k = 0 := by
      by_contra hne
      have hpos : 0 < countCustomerKey s tid k := Nat.pos_of_ne_zero hne
      have := (countP_pos_iff_find?_isSome _ _).mp hpos
      rw [show s.customers.find? (customerKeyP tid k) = none from h0] at this
      exact absurd this (by simp)
    by_cases hck : c.id = k
    · subst hck
      have hstep := ingestCustomerStep_count_none_self h0
      rw [hzero] at hstep
      have hpos : 0 < countCustomerKey (ingestCustomerStep tid s c).1 tid c.id := by
        rw [hstep]
        exact Nat.zero_lt_one
      show countCustomerKey
        (ingestCustomers tid rest (ingestCustomerStep tid s c).1).1 tid c.id = 1
      have := @ingestCustomers_count_pos tid rest (ingestCustomerStep tid s c).1
        (ingestCustomerStep_WF hW) tid c.id hpos
      rw [this, hstep]
    · have hkrest : ∃ c' ∈ rest, c'.id = k := by
        obtain ⟨c', hc', hck'⟩ := hk
        rcases List.mem_cons.mp hc' with hc' | hc'
        · exact absurd (hc' ▸ hck') hck
        · exact ⟨c', hc', hck'⟩
      have hne : ¬ (tid = tid ∧ k = c.id) := fun hcon => hck hcon.2.symm
      have hfstep : (ingestCustomerStep tid s c).1.findCustomer tid k = none := by
        cases hf : s.findCustomer tid c.id with
        | some ex =>
          rw [ingestCustomerStep_find_other hW.customersNodup hne]
          exact h0
        | none =>
          rw [ingestCustomerStep_find_other hW.customersNodup hne]
          exact h0
      show countCustomerKey
        (ingestCustomers tid rest (ingestCustomerStep tid s c).1).1 tid k = 1
      exact ih (ingestCustomerStep_WF hW) hfstep hkrest

/-! ## Product reconciliation lemmas -/

theorem findProduct_def (s : Store) (tid sid : String) :
    s.findProduct tid sid = s.products.find? (productKeyP tid sid) := rfl

theorem findProduct_key {s : Store} {tid sid : String} {r : ProductRow}
    (h : s.findProduct tid sid = some r) :
    r.tenantId = tid ∧ r.shopifyId = sid ∧ r ∈ s.products := by
  have hp := List.find?_some h
  have hm := List.mem_of_find?_eq_some h
  simp only [productKeyP, decide_eq_true_eq] at hp
  exact ⟨hp.1, hp.2, hm⟩

theorem productKeyP_congr {a b : ProductRow} (tid sid : String)
    (h1 : a.tenantId = b.tenantId) (h2 : a.shopifyId = b.shopifyId) :
    productKeyP tid sid a = productKeyP tid sid b := by
  simp [productKeyP, h1, h2]

theorem applyProductData_id (p : ShopifyProduct) (r : ProductRow) :
    (applyProductData p r).id = r.id := rfl

theorem applyProductData_tenantId (p : ShopifyProduct) (r : ProductRow) :
    (applyProductData p r).tenantId = r.tenantId := rfl

theorem applyProductData_shopifyId (p : ShopifyProduct) (r : ProductRow) :
    (applyProductData p r).shopifyId = p.id := rfl

theorem productUpdate_key_pres {s : Store} {tid : String} {p : ShopifyProduct}
    {ex : ProductRow} (hN : (s.products.map (·.id)).Nodup)
    (hfind : s.findProduct tid p.id = some ex) (tid' sid' : String) :
    ∀ r ∈ s.products,
      productKeyP tid' sid' (if r.id = ex.id then applyProductData p r else r) =
        productKeyP tid' sid' r := by
  intro r hr
  by_cases hid : r.id = ex.id
  · have hex := findProduct_key hfind
    have hre : r = ex := List.inj_on_of_nodup_map hN hr hex.2.2 hid
    subst hre
    rw [if_pos hid]
    exact productKeyP_congr tid' sid' (applyProductData_tenantId p r)
      ((applyProductData_shopifyId p r).trans hex.2.1.symm)
  · rw [if_neg hid]

theorem ingestProductStep_found {s : Store} {tid : String} {p : ShopifyProduct}
    {ex : ProductRow} (h : s.findProduct tid p.id = some ex) :
    ingestProductStep tid s p =
      ({ s with products :=
          s.products.map (fun r => if r.id = ex.id then applyProductData p r else r) },
        false) := by
  simp [ingestProductStep, h]

theorem ingestProductStep_none {s : Store} {tid : String} {p : ShopifyProduct}
    (h : s.findProduct tid p.id = none) :
    ingestProductStep tid s p =
      ({ s with
          products := s.products ++ [productData p tid s.nextId]
          nextId := s.nextId + 1 },
        true) := by
  simp [ingestProductStep, h]

theorem ingestProductStep_find_self_found {s : Store} {tid : String}
    {p : ShopifyProduct} {ex : ProductRow}
    (hN : (s.products.map (·.id)).Nodup)
    (h : s.findProduct tid p.id = some ex) :
    (ingestProductStep tid s p).1.findProduct tid p.id =
      some (applyProductData p ex) := by
  rw [ingestProductStep_found h, findProduct_def]
  simp only
  rw [find?_map_pres _ _ _ (productUpdate_key_pres hN h tid p.id),
    ← findProduct_def, h]
  simp

theorem ingestProductStep_find_self_none {s : Store} {tid : String}
    {p : ShopifyProduct} (h : s.findProduct tid p.id = none) :
    (ingestProductStep tid s p).1.findProduct tid p.id =
      some (productData p tid s.nextId) := by
  have h' : s.products.find? (productKeyP tid p.id) = none := h
  rw [ingestProductStep_none h, findProduct_def]
  simp only
  rw [find?_append_none _ _ _ h']
  simp [List.find?_cons, productKeyP, productData]

theorem ingestProductStep_find_other {s : Store} {tid : String}
    {p : ShopifyProduct} (hN : (s.products.map (·.id)).Nodup)
    {tid' sid' : String} (hk : ¬ (tid' = tid ∧ sid' = p.id)) :
    (ingestProductStep tid s p).1.findProduct tid' sid' =
      s.findProduct tid' sid' := by
  cases hf : s.findProduct tid p.id with
  | some ex =>
    rw [ingestProductStep_found hf]
    show (s.products.map _).find? (productKeyP tid' sid') = _
    rw [find?_map_pres _ _ _ (productUpdate_key_pres hN hf tid' sid'),
      ← findProduct_def]
    cases hf2 : s.findProduct tid' sid' with
    | none => rfl
    | some r =>
      have hr := findProduct_key hf2
      have hex := findProduct_key hf
      rw [Option.map_some']
      by_cases hid : r.id = ex.id
      · have hre : r = ex := List.inj_on_of_nodup_map hN hr.2.2 hex.2.2 hid
        subst hre
        exact absurd ⟨hr.1.symm.trans hex.1, hr.2.1.symm.trans hex.2.1⟩ hk
      · simp [hid]
  | none =>
    have hf' : s.products.find? (productKeyP tid p.id) = none := hf
    rw [ingestProductStep_none hf, findProduct_def]
    simp only
    cases hf2 : s.findProduct tid' sid' with
    | some r => exact find?_append_some _ _ _ _ hf2
    | none =>
      have hf2' : s.products.find? (productKeyP tid' sid') = none := hf2
      rw [find?_append_none _ _ _ hf2']
      have hfalse : productKeyP tid' sid' (productData p tid s.nextId) = false := by
        simp only [productKeyP, productData, decide_eq_false_iff_not]
        intro hcon
        exact hk ⟨hcon.1.symm, hcon.2.symm⟩
      simp [List.find?_cons, hfalse]

theorem ingestProductStep_length {s : Store} {tid : String}
    {p : ShopifyProduct} :
    (ingestProductStep tid s p).1.products.length =
      (if (s.findProduct tid p.id).isSome then s.products.length
        else s.products.length + 1) := by
  cases hf : s.findProduct tid p.id with
  | some ex => rw [ingestProductStep_found hf]; simp
  | none => rw [ingestProductStep_none hf]; simp

theorem ingestProductStep_created {s : Store} {tid : String}
    {p : ShopifyProduct} :
    (ingestProductStep tid s p).2 = (s.findProduct tid p.id).isNone := by
  cases hf : s.findProduct tid p.id with
  | some ex => rw [ingestProductStep_found hf]; rfl
  | none => rw [ingestProductStep_none hf]; rfl

theorem ingestProductStep_rest {s : Store} {tid : String} {p : ShopifyProduct} :
    (ingestProductStep tid s p).1.customers = s.customers ∧
    (ingestProductStep tid s p).1.orders = s.orders ∧
    (ingestProductStep tid s p).1.orderItems = s.orderItems ∧
    s.nextId ≤ (ingestProductStep tid s p).1.nextId := by
  cases hf : s.findProduct tid p.id with
  | some ex => rw [ingestProductStep_found hf]; exact ⟨rfl, rfl, rfl, le_refl _⟩
  | none => rw [ingestProductStep_none hf]; exact ⟨rfl, rfl, rfl, Nat.le_succ _⟩

theorem ingestProductStep_WF {s : Store} {tid : String} {p : ShopifyProduct}
    (hW : s.WF) : (ingestProductStep tid s p).1.WF := by
  obtain ⟨hc, ho, hi, hn⟩ := @ingestProductStep_rest s tid p
  have hprod : ((ingestProductStep tid s p).1.products.map (·.id)).Nodup ∧
      ∀ r ∈ (ingestProductStep tid s p).1.products,
        r.id < (ingestProductStep tid s p).1.nextId := by
    cases hf : s.findProduct tid p.id with
    | some ex =>
      have hpr : (ingestProductStep tid s p).1.products =
          s.products.map (fun r => if r.id = ex.id then applyProductData p r else r) := by
        rw [ingestProductStep_found hf]
      have hid_pt : ∀ r0 : ProductRow,
          (if r0.id = ex.id then applyProductData p r0 else r0).id = r0.id := by
        intro r0
        by_cases hid : r0.id = ex.id <;> simp [hid, applyProductData_id]
      constructor
      · rw [hpr, List.map_map]
        have : s.products.map ((fun x : ProductRow => x.id) ∘
            (fun r => if r.id = ex.id then applyProductData p r else r)) =
            s.products.map (fun x => x.id) := by
          apply List.map_congr_left
          intro r _
          exact hid_pt r
        rw [this]
        exact hW.productsNodup
      · intro r hr
        rw [hpr] at hr
        obtain ⟨r0, hr0, rfl⟩ := List.mem_map.mp hr
        rw [hid_pt r0]
        exact lt_of_lt_of_le (hW.productsLt r0 hr0) hn
    | none =>
      have hpr : (ingestProductStep tid s p).1.products =
          s.products ++ [productData p tid s.nextId] := by
        rw [ingestProductStep_none hf]
      have hn2 : (ingestProductStep tid s p).1.nextId = s.nextId + 1 := by
        rw [ingestProductStep_none hf]
      have hfresh : s.nextId ∉ s.products.map (·.id) := by
        intro hmem
        obtain ⟨r, hr, hid⟩ := List.mem_map.mp hmem
        exact absurd hid (Nat.ne_of_lt (hW.productsLt r hr))
      constructor
      · rw [hpr, List.map_append]
        simp only [List.map_cons, List.map_nil]
        rw [List.nodup_append]
        refine ⟨hW.productsNodup, List.nodup_singleton _, ?_⟩
        simp only [List.disjoint_singleton]
        exact hfresh
      · intro r hr
        rw [hpr] at hr
        rw [hn2]
        rcases List.mem_append.mp hr with hr | hr
        · exact Nat.lt_succ_of_lt (hW.productsLt r hr)
        · simp only [List.mem_singleton] at hr
          subst hr
          exact Nat.lt_succ_self _
  exact ⟨by rw [hc]; exact hW.customersNodup,
    fun r hr => by rw [hc] at hr; exact lt_of_lt_of_le (hW.customersLt r hr) hn,
    hprod.1, hprod.2,
    by rw [ho]; exact hW.ordersNodup,
    fun r hr => by rw [ho] at hr; exact lt_of_lt_of_le (hW.ordersLt r hr) hn,
    by rw [hi]; exact hW.orderItemsNodup,
    fun r hr => by rw [hi] at hr; exact lt_of_lt_of_le (hW.orderItemsLt r hr) hn⟩

theorem ingestProductStep_presence_mono {s : Store} {tid : String}
    {p : ShopifyProduct} (hN : (s.products.map (·.id)).Nodup)
    {tid' sid' : String} (h : (s.findProduct tid' sid').isSome) :
    ((ingestProductStep tid s p).1.findProduct tid' sid').isSome := by
  by_cases hk : tid' = tid ∧ sid' = p.id
  · cases hf : s.findProduct tid p.id with
    | some ex => rw [hk.1, hk.2, ingestProductStep_find_self_found hN hf]; rfl
    | none => rw [hk.1, hk.2, ingestProductStep_find_self_none hf]; rfl
  · rw [ingestProductStep_find_other hN hk]
    exact h

theorem ingestProducts_WF {tid : String} {remote : List ShopifyProduct}
    {s : Store} (hW : s.WF) : (ingestProducts tid remote s).1.WF := by
  induction remote generalizing s with
  | nil => exact hW
  | cons p rest ih => exact ih (ingestProductStep_WF hW)

theorem ingestProducts_presence_mono {tid : String}
    {remote : List ShopifyProduct} {s : Store} (hW : s.WF)
    {tid' sid' : String} (h : (s.findProduct tid' sid').isSome) :
    ((ingestProducts tid remote s).1.findProduct tid' sid').isSome := by
  induction remote generalizing s with
  | nil => exact h
  | cons p rest ih =>
    exact ih (ingestProductStep_WF hW)
      (ingestProductStep_presence_mono hW.productsNodup h)

theorem ingestProducts_mem_present {tid : String}
    {remote : List ShopifyProduct} {s : Store} (hW : s.WF)
    {p : ShopifyProduct} (hp : p ∈ remote) :
    ((ingestProducts tid remote s).1.findProduct tid p.id).isSome := by
  induction remote generalizing s with
  | nil => exact absurd hp (List.not_mem_nil p)
  | cons p0 rest ih =>
    rcases List.mem_cons.mp hp with hp | hp
    · subst hp
      show ((ingestProducts tid rest
        (ingestProductStep tid s p).1).1.findProduct tid p.id).isSome
      apply ingestProducts_presence_mono (ingestProductStep_WF hW)
      cases hf : s.findProduct tid p.id with
      | some ex => rw [ingestProductStep_find_self_found hW.productsNodup hf]; rfl
      | none => rw [ingestProductStep_find_self_none hf]; rfl
    · exact ih (ingestProductStep_WF hW) hp

theorem ingestProducts_all_updates {tid : String}
    {remote : List ShopifyProduct} {s : Store} (hW : s.WF)
    (hall : ∀ p ∈ remote, (s.findProduct tid p.id).isSome) :
    (ingestProducts tid remote s).2 = ⟨0, remote.length⟩ ∧
    (ingestProducts tid remote s).1.products.length = s.products.length := by
  induction remote generalizing s with
  | nil => exact ⟨rfl, rfl⟩
  | cons p rest ih =>
    have hp := hall p (List.mem_cons_self p rest)
    obtain ⟨ex, hex⟩ := Option.isSome_iff_exists.mp hp
    have hrest : ∀ p' ∈ rest, ((ingestProductStep tid s p).1.findProduct
        tid p'.id).isSome := fun p' hp' =>
      ingestProductStep_presence_mono hW.productsNodup
        (hall p' (List.mem_cons_of_mem p hp'))
    have hih := ih (ingestProductStep_WF hW) hrest
    constructor
    · show (if (ingestProductStep tid s p).2 then _ else
        (⟨(ingestProducts tid rest (ingestProductStep tid s p).1).2.created,
          (ingestProducts tid rest (ingestProductStep tid s p).1).2.updated + 1⟩
            : Counts)) = _
      rw [ingestProductStep_created, hex]
      simp only [Option.isNone_some, if_false, Bool.false_eq_true]
      rw [hih.1]
      rfl
    · show (ingestProducts tid rest (ingestProductStep tid s p).1).1.products.length = _
      rw [hih.2, ingestProductStep_length, hex]
      rfl

/-! ## Order-item block lemmas -/

theorem resolveProductId_congr {b b' : Store} (h : b'.products = b.products)
    (tid : String) (item : ShopifyLineItem) :
    resolveProductId tid b' item = resolveProductId tid b item := by
  unfold resolveProductId Store.findProduct
  rw [h]

theorem ingestItemStep_fields (tid : String) (oid : Nat) (s : Store)
    (item : ShopifyLineItem) :
    (ingestItemStep tid oid s item).customers = s.customers ∧
    (ingestItemStep tid oid s item).products = s.products ∧
    (ingestItemStep tid oid s item).orders = s.orders ∧
    (ingestItemStep tid oid s item).orderItems =
      s.orderItems ++ [orderItemData item oid (resolveProductId tid s item) s.nextId] ∧
    (ingestItemStep tid oid s item).nextId = s.nextId + 1 := by
  exact ⟨rfl, rfl, rfl, rfl, rfl⟩

theorem itemsFold_fields (tid : String) (oid : Nat) :
    ∀ (items : List ShopifyLineItem) (b : Store),
    (items.foldl (ingestItemStep tid oid) b).customers = b.customers ∧
    (items.foldl (ingestItemStep tid oid) b).products = b.products ∧
    (items.foldl (ingestItemStep tid oid) b).orders = b.orders ∧
    b.nextId ≤ (items.foldl (ingestItemStep tid oid) b).nextId
  | [], b => ⟨rfl, rfl, rfl, le_refl _⟩
  | item :: rest, b => by
    have ih := itemsFold_fields tid oid rest (ingestItemStep tid oid b item)
    refine ⟨ih.1, ih.2.1, ih.2.2.1, ?_⟩
    exact le_trans (Nat.le_succ _) ih.2.2.2

theorem ingestItemStep_WF {tid : String} {oid : Nat} {s : Store}
    {item : ShopifyLineItem} (hW : s.WF) : (ingestItemStep tid oid s item).WF := by
  have hfresh : s.nextId ∉ s.orderItems.map (·.id) := by
    intro hmem
    obtain ⟨r, hr, hid⟩ := List.mem_map.mp hmem
    exact absurd hid (Nat.ne_of_lt (hW.orderItemsLt r hr))
  refine ⟨hW.customersNodup,
    fun r hr => Nat.lt_succ_of_lt (hW.customersLt r hr),
    hW.productsNodup,
    fun r hr => Nat.lt_succ_of_lt (hW.productsLt r hr),
    hW.ordersNodup,
    fun r hr => Nat.lt_succ_of_lt (hW.ordersLt r hr),
    ?_, ?_⟩
  · show ((s.orderItems ++
      [orderItemData item oid (resolveProductId tid s item) s.nextId]).map (·.id)).Nodup
    rw [List.map_append]
    simp only [List.map_cons, List.map_nil]
    rw [List.nodup_append]
    refine ⟨hW.orderItemsNodup, List.nodup_singleton _, ?_⟩
    simp only [List.disjoint_singleton]
    exact hfresh
  · intro r hr
    rcases List.mem_append.mp hr with hr | hr
    · exact Nat.lt_succ_of_lt (hW.orderItemsLt r hr)
    · simp only [List.mem_singleton] at hr
      subst hr
      exact Nat.lt_succ_self _

theorem itemsFold_WF {tid : String} {oid : Nat} :
    ∀ {items : List ShopifyLineItem} {b : Store}, b.WF →
    (items.foldl (ingestItemStep tid oid) b).WF := by
  intro items
  induction items with
  | nil => exact fun h => h
  | cons item rest ih => exact fun h => ih (ingestItemStep_WF h)

theorem itemsFor_orderItems (s : Store) (l : List OrderItemRow) (n : Nat)
    (oid : Nat) :
    Store.itemsFor { s with orderItems := l, nextId := n } oid =
      l.filter (fun it => decide (it.orderId = oid)) := rfl

theorem deleteItems_itemsFor (s : Store) (oid : Nat) :
    Store.itemsFor
      { s with orderItems := s.orderItems.filter (fun it => decide (¬ it.orderId = oid)) }
      oid = [] := by
  show (s.orderItems.filter _).filter _ = _
  rw [List.filter_filter]
  rw [List.filter_eq_nil_iff]
  intro a _
  by_cases h : a.orderId = oid <;> simp [h]

theorem itemsFold_content (tid : String) (oid : Nat) :
    ∀ (items : List ShopifyLineItem) (b : Store),
    ((items.foldl (ingestItemStep tid oid) b).itemsFor oid).map OrderItemRow.content =
      (b.itemsFor oid).map OrderItemRow.content ++
      items.map (fun item =>
        (orderItemData item oid (resolveProductId tid b item) 0).content)
  | [], b => by simp
  | item :: rest, b => by
    have ih := itemsFold_content tid oid rest (ingestItemStep tid oid b item)
    show ((rest.foldl (ingestItemStep tid oid)
      (ingestItemStep tid oid b item)).itemsFor oid).map OrderItemRow.content = _
    rw [ih]
    have hstep : ((ingestItemStep tid oid b item).itemsFor oid) =
        b.itemsFor oid ++ [orderItemData item oid (resolveProductId tid b item) b.nextId] := by
      show ((b.orderItems ++ [_]).filter _) = _
      rw [List.filter_append]
      congr 1
      simp [orderItemData]
    rw [hstep]
    have hres : ∀ it : ShopifyLineItem,
        resolveProductId tid (ingestItemStep tid oid b item) it =
          resolveProductId tid b it :=
      fun it => resolveProductId_congr (ingestItemStep_fields tid oid b item).2.1 tid it
    have h2 : rest.map (fun it =>
        (orderItemData it oid
          (resolveProductId tid (ingestItemStep tid oid b item) it) 0).content) =
        rest.map (fun it =>
          (orderItemData it oid (resolveProductId tid b it) 0).content) := by
      apply List.map_congr_left
      intro it _
      rw [hres it]
    rw [h2, List.map_append]
    simp [List.append_assoc, OrderItemRow.content, orderItemData]

theorem ingestOrderItems_empty {tid : String} {oid : Nat} {s : Store}
    {items : List ShopifyLineItem} (h : items = []) :
    ingestOrderItems tid oid items s = s := by
  subst h
  rfl

theorem ingestOrderItems_nonempty {tid : String} {oid : Nat} {s : Store}
    {items : List ShopifyLineItem} (h : ¬ items = []) :
    ingestOrderItems tid oid items s =
      items.foldl (ingestItemStep tid oid)
        { s with orderItems :=
            s.orderItems.filter (fun it => decide (¬ it.orderId = oid)) } := by
  unfold ingestOrderItems
  rw [if_neg (by simp [h])]

theorem ingestOrderItems_fields (tid : String) (oid : Nat)
    (items : List ShopifyLineItem) (s : Store) :
    (ingestOrderItems tid oid items s).customers = s.customers ∧
    (ingestOrderItems tid oid items s).products = s.products ∧
    (ingestOrderItems tid oid items s).orders = s.orders ∧
    s.nextId ≤ (ingestOrderItems tid oid items s).nextId := by
  by_cases h : items = []
  · rw [ingestOrderItems_empty h]
    exact ⟨rfl, rfl, rfl, le_refl _⟩
  · rw [ingestOrderItems_nonempty h]
    have := itemsFold_fields tid oid items
      { s with orderItems := s.orderItems.filter (fun it => decide (¬ it.orderId = oid)) }
    exact this

theorem ingestOrderItems_WF {tid : String} {oid : Nat}
    {items : List ShopifyLineItem} {s : Store} (hW : s.WF) :
    (ingestOrderItems tid oid items s).WF := by
  by_cases h : items = []
  · rw [ingestOrderItems_empty h]
    exact hW
  · rw [ingestOrderItems_nonempty h]
    apply itemsFold_WF
    have hsub : (s.orderItems.filter (fun it => decide (¬ it.orderId = oid))).map (·.id)
        |>.Sublist (s.orderItems.map (·.id)) :=
      (s.orderItems.filter_sublist).map _
    exact ⟨hW.customersNodup, hW.customersLt, hW.productsNodup, hW.productsLt,
      hW.ordersNodup, hW.ordersLt, hW.orderItemsNodup.sublist hsub,
      fun r hr => hW.orderItemsLt r (List.mem_of_mem_filter hr)⟩

theorem ingestOrderItems_itemsFor {tid : String} {oid : Nat}
    {items : List ShopifyLineItem} {s : Store} (h : ¬ items = []) :
    ((ingestOrderItems tid oid items s).itemsFor oid).map OrderItemRow.content =
      items.map (fun item =>
        (orderItemData item oid (resolveProductId tid s item) 0).content) := by
  have hpp : ({ s with orderItems := s.orderItems.filter (fun x => decide (¬ x.orderId = oid)) } : Store).products = s.products := rfl
  rw [ingestOrderItems_nonempty h]
  rw [itemsFold_content]
  rw [deleteItems_itemsFor s oid]
  simp only [List.map_nil, List.nil_append]
  apply List.map_congr_left
  intro it _
  rw [resolveProductId_congr hpp]

/-! ## Order reconciliation lemmas -/

theorem findOrder_def (s : Store) (tid sid : String) :
    s.findOrder tid sid = s.orders.find? (orderKeyP tid sid) := rfl

theorem findOrder_key {s : Store} {tid sid : String} {r : OrderRow}
    (h : s.findOrder tid sid = some r) :
    r.tenantId = tid ∧ r.shopifyId = sid ∧ r ∈ s.orders := by
  have hp := List.find?_some h
  have hm := List.mem_of_find?_eq_some h
  simp only [orderKeyP, decide_eq_true_eq] at hp
  exact ⟨hp.1, hp.2, hm⟩

theorem orderKeyP_congr {a b : OrderRow} (tid sid : String)
    (h1 : a.tenantId = b.tenantId) (h2 : a.shopifyId = b.shopifyId) :
    orderKeyP tid sid a = orderKeyP tid sid b := by
  simp [orderKeyP, h1, h2]

theorem applyOrderData_id (o : ShopifyOrder) (cid : Option Nat) (r : OrderRow) :
    (applyOrderData o cid r).id = r.id := rfl

theorem applyOrderData_tenantId (o : ShopifyOrder) (cid : Option Nat) (r : OrderRow) :
    (applyOrderData o cid r).tenantId = r.tenantId := rfl

theorem applyOrderData_shopifyId (o : ShopifyOrder) (cid : Option Nat) (r : OrderRow) :
    (applyOrderData o cid r).shopifyId = o.id := rfl

theorem applyOrderData_customerId (o : ShopifyOrder) (cid : Option Nat) (r : OrderRow) :
    (applyOrderData o cid r).customerId = cid := rfl

theorem orderData_customerId (o : ShopifyOrder) (cid : Option Nat) (tid : String)
    (rid : Nat) : (orderData o cid tid rid).customerId = cid := rfl

theorem orderUpdate_key_pres {s : Store} {tid : String} {o : ShopifyOrder}
    {cid : Option Nat} {ex : OrderRow} (hN : (s.orders.map (·.id)).Nodup)
    (hfind : s.findOrder tid o.id = some ex) (tid' sid' : String) :
    ∀ r ∈ s.orders,
      orderKeyP tid' sid' (if r.id = ex.id then applyOrderData o cid r else r) =
        orderKeyP tid' sid' r := by
  intro r hr
  by_cases hid : r.id = ex.id
  · have hex := findOrder_key hfind
    have hre : r = ex := List.inj_on_of_nodup_map hN hr hex.2.2 hid
    subst hre
    rw [if_pos hid]
    exact orderKeyP_congr tid' sid' (applyOrderData_tenantId o cid r)
      ((applyOrderData_shopifyId o cid r).trans hex.2.1.symm)
  · rw [if_neg hid]

theorem ingestOrderStep_found {s : Store} {tid : String} {o : ShopifyOrder}
    {ex : OrderRow} (h : s.findOrder tid o.id = some ex) :
    ingestOrderStep tid s o =
      (ingestOrderItems tid ex.id o.line_items
        { s with orders := s.orders.map (fun r => if r.id = ex.id then applyOrderData o (resolveCustomerId tid s o) r else r) },
        false) := by
  simp [ingestOrderStep, h]

theorem ingestOrderStep_none {s : Store} {tid : String} {o : ShopifyOrder}
    (h : s.findOrder tid o.id = none) :
    ingestOrderStep tid s o =
      (ingestOrderItems tid s.nextId o.line_items
        { s with orders := s.orders ++ [orderData o (resolveCustomerId tid s o) tid s.nextId], nextId := s.nextId + 1 },
        true) := by
  simp [ingestOrderStep, h]

theorem ingestOrderStep_orders_found {s : Store} {tid : String} {o : ShopifyOrder}
    {ex : OrderRow} (h : s.findOrder tid o.id = some ex) :
    (ingestOrderStep tid s o).1.orders =
      s.orders.map (fun r =>
        if r.id = ex.id then applyOrderData o (resolveCustomerId tid s o) r else r) := by
  rw [ingestOrderStep_found h]
  exact (ingestOrderItems_fields _ _ _ _).2.2.1

theorem ingestOrderStep_orders_none {s : Store} {tid : String} {o : ShopifyOrder}
    (h : s.findOrder tid o.id = none) :
    (ingestOrderStep tid s o).1.orders =
      s.orders ++ [orderData o (resolveCustomerId tid s o) tid s.nextId] := by
  rw [ingestOrderStep_none h]
  exact (ingestOrderItems_fields _ _ _ _).2.2.1

theorem ingestOrderStep_find_self_found {s : Store} {tid : String}
    {o : ShopifyOrder} {ex : OrderRow} (hN : (s.orders.map (·.id)).Nodup)
    (h : s.findOrder tid o.id = some ex) :
    (ingestOrderStep tid s o).1.findOrder tid o.id =
      some (applyOrderData o (resolveCustomerId tid s o) ex) := by
  rw [findOrder_def, ingestOrderStep_orders_found h]
  rw [find?_map_pres _ _ _ (orderUpdate_key_pres hN h tid o.id),
    ← findOrder_def, h]
  simp

theorem ingestOrderStep_find_self_none {s : Store} {tid : String}
    {o : ShopifyOrder} (h : s.findOrder tid o.id = none) :
    (ingestOrderStep tid s o).1.findOrder tid o.id =
      some (orderData o (resolveCustomerId tid s o) tid s.nextId) := by
  have h' : s.orders.find? (orderKeyP tid o.id) = none := h
  rw [findOrder_def, ingestOrderStep_orders_none h]
  rw [find?_append_none _ _ _ h']
  simp [List.find?_cons, orderKeyP, orderData]

theorem ingestOrderStep_find_other {s : Store} {tid : String}
    {o : ShopifyOrder} (hN : (s.orders.map (·.id)).Nodup)
    {tid' sid' : String} (hk : ¬ (tid' = tid ∧ sid' = o.id)) :
    (ingestOrderStep tid s o).1.findOrder tid' sid' =
      s.findOrder tid' sid' := by
  cases hf : s.findOrder tid o.id with
  | some ex =>
    rw [findOrder_def, ingestOrderStep_orders_found hf]
    rw [find?_map_pres _ _ _ (orderUpdate_key_pres hN hf tid' sid'),
      ← findOrder_def]
    cases hf2 : s.findOrder tid' sid' with
    | none => rfl
    | some r =>
      have hr := findOrder_key hf2
      have hex := findOrder_key hf
      rw [Option.map_some']
      by_cases hid : r.id = ex.id
      · have hre : r = ex := List.inj_on_of_nodup_map hN hr.2.2 hex.2.2 hid
        subst hre
        exact absurd ⟨hr.1.symm.trans hex.1, hr.2.1.symm.trans hex.2.1⟩ hk
      · simp [hid]
  | none =>
    have hf' : s.orders.find? (orderKeyP tid o.id) = none := hf
    rw [findOrder_def, ingestOrderStep_orders_none hf]
    cases hf2 : s.findOrder tid' sid' with
    | some r => exact find?_append_some _ _ _ _ hf2
    | none =>
      have hf2' : s.orders.find? (orderKeyP tid' sid') = none := hf2
      rw [find?_append_none _ _ _ hf2']
      have hfalse : orderKeyP tid' sid'
          (orderData o (resolveCustomerId tid s o) tid s.nextId) = false := by
        simp only [orderKeyP, orderData, decide_eq_false_iff_not]
        intro hcon
        exact hk ⟨hcon.1.symm, hcon.2.symm⟩
      simp [List.find?_cons, hfalse]

theorem ingestOrderStep_length {s : Store} {tid : String} {o : ShopifyOrder} :
    (ingestOrderStep tid s o).1.orders.length =
      (if (s.findOrder tid o.id).isSome then s.orders.length
        else s.orders.length + 1) := by
  cases hf : s.findOrder tid o.id with
  | some ex => rw [ingestOrderStep_orders_found hf]; simp
  | none => rw [ingestOrderStep_orders_none hf]; simp

theorem ingestOrderStep_created {s : Store} {tid : String} {o : ShopifyOrder} :
    (ingestOrderStep tid s o).2 = (s.findOrder tid o.id).isNone := by
  cases hf : s.findOrder tid o.id with
  | some ex => rw [ingestOrderStep_found hf]; rfl
  | none => rw [ingestOrderStep_none hf]; rfl

theorem ingestOrderStep_rest {s : Store} {tid : String} {o : ShopifyOrder} :
    (ingestOrderStep tid s o).1.customers = s.customers ∧
    (ingestOrderStep tid s o).1.products = s.products ∧
    s.nextId ≤ (ingestOrderStep tid s o).1.nextId := by
  cases hf : s.findOrder tid o.id with
  | some ex =>
    rw [ingestOrderStep_found hf]
    obtain ⟨hc, hp, _, hn⟩ := ingestOrderItems_fields tid ex.id o.line_items _
    exact ⟨hc, hp, hn⟩
  | none =>
    rw [ingestOrderStep_none hf]
    obtain ⟨hc, hp, _, hn⟩ := ingestOrderItems_fields tid s.nextId o.line_items _
    exact ⟨hc, hp, le_trans (Nat.le_succ _) hn⟩

theorem ingestOrderStep_WF {s : Store} {tid : String} {o : ShopifyOrder}
    (hW : s.WF) : (ingestOrderStep tid s o).1.WF := by
  cases hf : s.findOrder tid o.id with
  | some ex =>
    rw [ingestOrderStep_found hf]
    apply ingestOrderItems_WF
    have hid_pt : ∀ r0 : OrderRow,
        (if r0.id = ex.id then applyOrderData o (resolveCustomerId tid s o) r0 else r0).id
          = r0.id := by
      intro r0
      by_cases hid : r0.id = ex.id <;> simp [hid, applyOrderData_id]
    refine ⟨hW.customersNodup, hW.customersLt, hW.productsNodup, hW.productsLt,
      ?_, ?_, hW.orderItemsNodup, hW.orderItemsLt⟩
    · show ((s.orders.map (fun r =>
        if r.id = ex.id then applyOrderData o (resolveCustomerId tid s o) r else r)).map
          (fun x : OrderRow => x.id)).Nodup
      rw [List.map_map]
      have : s.orders.map ((fun x : OrderRow => x.id) ∘
          (fun r => if r.id = ex.id then applyOrderData o (resolveCustomerId tid s o) r else r)) =
          s.orders.map (fun x => x.id) := by
        apply List.map_congr_left
        intro r _
        exact hid_pt r
      rw [this]
      exact hW.ordersNodup
    · intro r hr
      obtain ⟨r0, hr0, rfl⟩ := List.mem_map.mp hr
      rw [hid_pt r0]
      exact hW.ordersLt r0 hr0
  | none =>
    rw [ingestOrderStep_none hf]
    apply ingestOrderItems_WF
    have hfresh : s.nextId ∉ s.orders.map (·.id) := by
      intro hmem
      obtain ⟨r, hr, hid⟩ := List.mem_map.mp hmem
      exact absurd hid (Nat.ne_of_lt (hW.ordersLt r hr))
    refine ⟨hW.customersNodup,
      fun r hr => Nat.lt_succ_of_lt (hW.customersLt r hr),
      hW.productsNodup,
      fun r hr => Nat.lt_succ_of_lt (hW.productsLt r hr),
      ?_, ?_,
      hW.orderItemsNodup,
      fun r hr => Nat.lt_succ_of_lt (hW.orderItemsLt r hr)⟩
    · show ((s.orders ++ [orderData o (resolveCustomerId tid s o) tid s.nextId]).map
        (·.id)).Nodup
      rw [List.map_append]
      simp only [List.map_cons, List.map_nil]
      rw [List.nodup_append]
      refine ⟨hW.ordersNodup, List.nodup_singleton _, ?_⟩
      simp only [List.disjoint_singleton]
      exact hfresh
    · intro r hr
      rcases List.mem_append.mp hr with hr | hr
      · exact Nat.lt_succ_of_lt (hW.ordersLt r hr)
      · simp only [List.mem_singleton] at hr
        subst hr
        exact Nat.lt_succ_self _

theorem ingestOrderStep_presence_mono {s : Store} {tid : String}
    {o : ShopifyOrder} (hN : (s.orders.map (·.id)).Nodup)
    {tid' sid' : String} (h : (s.findOrder tid' sid').isSome) :
    ((ingestOrderStep tid s o).1.findOrder tid' sid').isSome := by
  by_cases hk : tid' = tid ∧ sid' = o.id
  · cases hf : s.findOrder tid o.id with
    | some ex => rw [hk.1, hk.2, ingestOrderStep_find_self_found hN hf]; rfl
    | none => rw [hk.1, hk.2, ingestOrderStep_find_self_none hf]; rfl
  · rw [ingestOrderStep_find_other hN hk]
    exact h

theorem ingestOrders_WF {tid : String} {remote : List ShopifyOrder}
    {s : Store} (hW : s.WF) : (ingestOrders tid remote s).1.WF := by
  induction remote generalizing s with
  | nil => exact hW
  | cons o rest ih => exact ih (ingestOrderStep_WF hW)

theorem ingestOrders_presence_mono {tid : String}
    {remote : List ShopifyOrder} {s : Store} (hW : s.WF)
    {tid' sid' : String} (h : (s.findOrder tid' sid').isSome) :
    ((ingestOrders tid remote s).1.findOrder tid' sid').isSome := by
  induction remote generalizing s with
  | nil => exact h
  | cons o rest ih =>
    exact ih (ingestOrderStep_WF hW)
      (ingestOrderStep_presence_mono hW.ordersNodup h)

theorem ingestOrders_mem_present {tid : String}
    {remote : List ShopifyOrder} {s : Store} (hW : s.WF)
    {o : ShopifyOrder} (ho : o ∈ remote) :
    ((ingestOrders tid remote s).1.findOrder tid o.id).isSome := by
  induction remote generalizing s with
  | nil => exact absurd ho (List.not_mem_nil o)
  | cons o0 rest ih =>
    rcases List.mem_cons.mp ho with ho | ho
    · subst ho
      show ((ingestOrders tid rest
        (ingestOrderStep tid s o).1).1.findOrder tid o.id).isSome
      apply ingestOrders_presence_mono (ingestOrderStep_WF hW)
      cases hf : s.findOrder tid o.id with
      | some ex => rw [ingestOrderStep_find_self_found hW.ordersNodup hf]; rfl
      | none => rw [ingestOrderStep_find_self_none hf]; rfl
    · exact ih (ingestOrderStep_WF hW) ho

theorem ingestOrders_all_updates {tid : String}
    {remote : List ShopifyOrder} {s : Store} (hW : s.WF)
    (hall : ∀ o ∈ remote, (s.findOrder tid o.id).isSome) :
    (ingestOrders tid remote s).2 = ⟨0, remote.length⟩ ∧
    (ingestOrders tid remote s).1.orders.length = s.orders.length := by
  induction remote generalizing s with
  | nil => exact ⟨rfl, rfl⟩
  | cons o rest ih =>
    have ho := hall o (List.mem_cons_self o rest)
    obtain ⟨ex, hex⟩ := Option.isSome_iff_exists.mp ho
    have hrest : ∀ o' ∈ rest, ((ingestOrderStep tid s o).1.findOrder
        tid o'.id).isSome := fun o' ho' =>
      ingestOrderStep_presence_mono hW.ordersNodup
        (hall o' (List.mem_cons_of_mem o ho'))
    have hih := ih (ingestOrderStep_WF hW) hrest
    constructor
    · show (if (ingestOrderStep tid s o).2 then _ else
        (⟨(ingestOrders tid rest (ingestOrderStep tid s o).1).2.created,
          (ingestOrders tid rest (ingestOrderStep tid s o).1).2.updated + 1⟩
            : Counts)) = _
      rw [ingestOrderStep_created, hex]
      simp only [Option.isNone_some, if_false, Bool.false_eq_true]
      rw [hih.1]
      rfl
    · show (ingestOrders tid rest (ingestOrderStep tid s o).1).1.orders.length = _
      rw [hih.2, ingestOrderStep_length, hex]
      rfl

theorem ingestOrders_singleton (tid : String) (o : ShopifyOrder) (s : Store) :
    (ingestOrders tid [o] s).1 = (ingestOrderStep tid s o).1 := rfl

theorem ingestCustomers_singleton (tid : String) (c : ShopifyCustomer) (s : Store) :
    (ingestCustomers tid [c] s).1 = (ingestCustomerStep tid s c).1 := rfl

/-! ## Reference-resolution lemmas -/

theorem resolveCustomerId_absent {tid cid : String} {o : ShopifyOrder} {s : Store}
    (hc : o.customer = some cid) (hne : cid ≠ "")
    (hf : s.findCustomer tid cid = none) :
    resolveCustomerId tid s o = none := by
  unfold resolveCustomerId
  rw [hc]
  simp [jsTruthy, hne, hf]

theorem resolveCustomerId_present {tid cid : String} {o : ShopifyOrder} {s : Store}
    {r : CustomerRow} (hc : o.customer = some cid) (hne : cid ≠ "")
    (hf : s.findCustomer tid cid = some r) :
    resolveCustomerId tid s o = some r.id := by
  unfold resolveCustomerId
  rw [hc]
  simp [jsTruthy, hne, hf]

theorem resolveProductId_absent {tid : String} {s : Store} {item : ShopifyLineItem}
    (h : ∀ pid, item.product_id = some pid → s.findProduct tid pid = none) :
    resolveProductId tid s item = none := by
  unfold resolveProductId
  cases hp : item.product_id with
  | none => simp [jsTruthy]
  | some pid =>
    by_cases hne : pid = ""
    · simp [jsTruthy, hp, hne]
    · simp [jsTruthy, hp, hne, h pid hp]

/-! ## Item-set lemmas at the order-step level -/

theorem ingestOrderStep_itemsFor_found {s : Store} {tid : String} {o : ShopifyOrder}
    {ex : OrderRow} (hf : s.findOrder tid o.id = some ex)
    (hne : ¬ o.line_items = []) :
    ((ingestOrderStep tid s o).1.itemsFor ex.id).map OrderItemRow.content =
      o.line_items.map (expectedItemContent tid s) := by
  rw [ingestOrderStep_found hf]
  show ((ingestOrderItems tid ex.id o.line_items _).itemsFor ex.id).map _ = _
  rw [ingestOrderItems_itemsFor hne]
  apply List.map_congr_left
  intro it _
  unfold expectedItemContent resolveProductId Store.findProduct
  rfl

theorem ingestOrderStep_itemsFor_none {s : Store} {tid : String} {o : ShopifyOrder}
    (hf : s.findOrder tid o.id = none) (hne : ¬ o.line_items = []) :
    ((ingestOrderStep tid s o).1.itemsFor s.nextId).map OrderItemRow.content =
      o.line_items.map (expectedItemContent tid s) := by
  rw [ingestOrderStep_none hf]
  show ((ingestOrderItems tid s.nextId o.line_items _).itemsFor s.nextId).map _ = _
  rw [ingestOrderItems_itemsFor hne]
  apply List.map_congr_left
  intro it _
  unfold expectedItemContent resolveProductId Store.findProduct
  rfl

theorem ingestOrderStep_items_empty {s : Store} {tid : String} {o : ShopifyOrder}
    (he : o.line_items = []) :
    (ingestOrderStep tid s o).1.orderItems = s.orderItems := by
  cases hf : s.findOrder tid o.id with
  | some ex =>
    rw [ingestOrderStep_found hf]
    rw [ingestOrderItems_empty he]
  | none =>
    rw [ingestOrderStep_none hf]
    rw [ingestOrderItems_empty he]

/-! ## Pagination-loop lemmas -/

theorem fetchAllPages_chain {α : Type}
    {fetch : Option String → Except TransportError (PageResponse α)}
    {cur : Option String} {n : Nat} {recs : List α}
    (h : FetchChain fetch cur n recs) :
    ∀ (fuel : Nat) (acc : List α), n ≤ fuel →
      fetchAllPages fetch fuel cur acc = Except.ok (acc ++ recs) := by
  induction h with
  | last cur recs hf =>
    intro fuel acc hle
    cases fuel with
    | zero => exact absurd hle (by simp)
    | succ m =>
      show (match fetch cur with
        | Except.error e => Except.error e
        | Except.ok page => _) = _
      rw [hf]
  | step cur recs tok n rest hf hchain ih =>
    intro fuel acc hle
    cases fuel with
    | zero => exact absurd hle (by simp)
    | succ m =>
      show (match fetch cur with
        | Except.error e => Except.error e
        | Except.ok page => _) = _
      rw [hf]
      show fetchAllPages fetch m (some tok) (acc ++ recs) = _
      rw [ih m (acc ++ recs) (Nat.le_of_succ_le_succ hle), List.append_assoc]

theorem fetchAllPages_fails {α : Type}
    {fetch : Option String → Except TransportError (PageResponse α)}
    {cur : Option String} {k : Nat} {e : TransportError}
    (h : FetchFails fetch cur k e) :
    ∀ (fuel : Nat) (acc : List α), k < fuel →
      fetchAllPages fetch fuel cur acc = Except.error e := by
  induction h with
  | here cur e hf =>
    intro fuel acc hlt
    cases fuel with
    | zero => exact absurd hlt (by simp)
    | succ m =>
      show (match fetch cur with
        | Except.error err => Except.error err
        | Except.ok page => _) = _
      rw [hf]
  | later cur recs tok k e hf hfail ih =>
    intro fuel acc hlt
    cases fuel with
    | zero => exact absurd hlt (by simp)
    | succ m =>
      show (match fetch cur with
        | Except.error err => Except.error err
        | Except.ok page => _) = _
      rw [hf]
      show fetchAllPages fetch m (some tok) (acc ++ recs) = _
      exact ih m (acc ++ recs) (Nat.lt_of_succ_lt_succ hlt)

/-! ## Store well-formedness of concrete stores -/

theorem emptyStore_WF : emptyStore.WF := by
  constructor <;> decide

theorem cexStore_WF : cexStore.WF := by
  constructor <;> decide

/-! ## Claim C1 -/

/-- C1 counterexample: in the actual execution of `ingestAll` — `Promise.all`
starts all three ingestions before any can finish — the Customer and Product
ingestions do NOT finish before the Order ingestion starts, refuting the
claimed ordering at the concrete completion order (customers, products,
orders). -/
theorem c1_counterexample :
    ¬ (((ingestAllTrace [EntityTask.customers, EntityTask.products,
          EntityTask.orders]).indexOf (SyncEvent.finish EntityTask.customers) <
        (ingestAllTrace [EntityTask.customers, EntityTask.products,
          EntityTask.orders]).indexOf (SyncEvent.start EntityTask.orders)) ∧
      ((ingestAllTrace [EntityTask.customers, EntityTask.products,
          EntityTask.orders]).indexOf (SyncEvent.finish EntityTask.products) <
        (ingestAllTrace [EntityTask.customers, EntityTask.products,
          EntityTask.orders]).indexOf (SyncEvent.start EntityTask.orders))) := by
  decide

/-- C1 (amended): `ingestAll` runs the three ingestions concurrently via
`Promise.all`: in every execution trace the three ingestions start — in array
order customers, products, orders — before any of them finishes; in
particular Order ingestion begins strictly before Customer and Product
ingestion finish, whatever the completion order. -/
theorem c1_ingestAll_concurrent (co : List EntityTask) :
    (ingestAllTrace co).indexOf (SyncEvent.start EntityTask.customers) = 0 ∧
    (ingestAllTrace co).indexOf (SyncEvent.start EntityTask.products) = 1 ∧
    (ingestAllTrace co).indexOf (SyncEvent.start EntityTask.orders) = 2 ∧
    ∀ task : EntityTask,
      (ingestAllTrace co).indexOf (SyncEvent.start EntityTask.orders) <
        (ingestAllTrace co).indexOf (SyncEvent.finish task) := by
  have htr : ingestAllTrace co = SyncEvent.start EntityTask.customers ::
      (SyncEvent.start EntityTask.products :: (SyncEvent.start EntityTask.orders ::
        co.map SyncEvent.finish)) := rfl
  have hsf : ∀ (a b : EntityTask), (SyncEvent.start a == SyncEvent.finish b) = false := by
    intro a b
    cases a <;> cases b <;> rfl
  have hss : ∀ (a b : EntityTask), a ≠ b →
      (SyncEvent.start a == SyncEvent.start b) = false := by
    intro a b hab
    cases a <;> cases b <;> first | rfl | exact absurd rfl hab
  refine ⟨?_, ?_, ?_, ?_⟩
  · rw [htr]
    simp [List.indexOf_cons]
  · rw [htr]
    simp only [List.indexOf_cons,
      hss EntityTask.customers EntityTask.products (by decide),
      beq_self_eq_true, cond_true, cond_false]
  · rw [htr]
    simp only [List.indexOf_cons,
      hss EntityTask.customers EntityTask.orders (by decide),
      hss EntityTask.products EntityTask.orders (by decide),
      beq_self_eq_true, cond_true, cond_false]
  · intro task
    rw [htr]
    simp only [List.indexOf_cons,
      hss EntityTask.customers EntityTask.orders (by decide),
      hss EntityTask.products EntityTask.orders (by decide),
      hsf EntityTask.customers task, hsf EntityTask.products task,
      hsf EntityTask.orders task, beq_self_eq_true, cond_true, cond_false]
    omega

/-! ## Claim C2 -/

/-- C2 counterexample: an order delivered with an EMPTY remote line-item set
keeps its previously stored (now stale) item — the stored item set does not
equal the delivered (empty) set. -/
theorem c2_counterexample :
    ((ingestOrders "t1" [cexEmptyItemsOrder] cexStore).1.itemsFor cexOrderRow.id) =
      [cexStaleItem] ∧
    ¬ ((ingestOrders "t1" [cexEmptyItemsOrder] cexStore).1.itemsFor cexOrderRow.id) =
      [] := by
  decide

/-- C2 (amended): item-set replacement happens only when the delivered remote
line-item set is non-empty: then all previously stored items of the order are
deleted and the stored item set becomes exactly the delivered set (payload
for payload, product references resolved against the pre-run store); when the
delivered set is empty, the `order_items` table is left completely untouched,
so previously stored items for the order remain. -/
theorem c2_item_replacement (tid : String) (s : Store) (o : ShopifyOrder)
    (hW : s.WF) :
    ((ingestOrders tid [o] s).1.findOrder tid o.id).isSome ∧
    (¬ o.line_items = [] →
      ∀ row, (ingestOrders tid [o] s).1.findOrder tid o.id = some row →
        ((ingestOrders tid [o] s).1.itemsFor row.id).map OrderItemRow.content =
          o.line_items.map (expectedItemContent tid s)) ∧
    (o.line_items = [] →
      (ingestOrders tid [o] s).1.orderItems = s.orderItems) := by
  have hsing : (ingestOrders tid [o] s).1 = (ingestOrderStep tid s o).1 := rfl
  refine ⟨?_, ?_, ?_⟩
  · rw [hsing]
    cases hf : s.findOrder tid o.id with
    | some ex => rw [ingestOrderStep_find_self_found hW.ordersNodup hf]; rfl
    | none => rw [ingestOrderStep_find_self_none hf]; rfl
  · intro hne row hrow
    rw [hsing] at hrow ⊢
    cases hf : s.findOrder tid o.id with
    | some ex =>
      rw [ingestOrderStep_find_self_found hW.ordersNodup hf] at hrow
      have hrw : row = applyOrderData o (resolveCustomerId tid s o) ex :=
        (Option.some.inj hrow).symm
      rw [hrw, applyOrderData_id]
      exact ingestOrderStep_itemsFor_found hf hne
    | none =>
      rw [ingestOrderStep_find_self_none hf] at hrow
      have hrw : row = orderData o (resolveCustomerId tid s o) tid s.nextId :=
        (Option.some.inj hrow).symm
      rw [hrw]
      exact ingestOrderStep_itemsFor_none hf hne
  · intro he
    rw [hsing]
    exact ingestOrderStep_items_empty he

/-- C2 witness: at the concrete empty-line-items scenario the amended
theorem applies, giving the untouched item table. -/
theorem c2_item_replacement_witness :
    ((ingestOrders "t1" [cexEmptyItemsOrder] cexStore).1.findOrder "t1" "O1").isSome ∧
    (ingestOrders "t1" [cexEmptyItemsOrder] cexStore).1.orderItems =
      cexStore.orderItems := by
  have h := c2_item_replacement "t1" cexStore cexEmptyItemsOrder cexStore_WF
  exact ⟨h.1, h.2.2 rfl⟩

/-! ## Claim C8 -/

/-- C8: in one scheduled sync cycle, a tenant whose `ingestAll` throws is
reported as failed, and every tenant before and after it is still processed,
each with the outcome its own ingestion alone determines. -/
theorem c8_per_tenant_isolation (f : Tenant → Except String IngestAllResult)
    (pre post : List Tenant) (t : Tenant) (e : String)
    (hfail : f t = Except.error e) :
    scheduleDataSyncCycle f (pre ++ t :: post) =
      scheduleDataSyncCycle f pre ++
        TenantSyncOutcome.failed t.shopDomain e :: scheduleDataSyncCycle f post := by
  induction pre with
  | nil =>
    show syncTenant f t :: scheduleDataSyncCycle f post = _
    rw [show syncTenant f t = TenantSyncOutcome.failed t.shopDomain e from by
      unfold syncTenant
      rw [hfail]]
    rfl
  | cons t0 rest ih =>
    show syncTenant f t0 :: scheduleDataSyncCycle f (rest ++ t :: post) = _
    rw [ih]
    rfl

/-- C8 witness: a two-tenant cycle where the first tenant's credential is
revoked still syncs the second tenant. -/
theorem c8_per_tenant_isolation_witness :
    scheduleDataSyncCycle
      (fun tn => if tn.shopDomain = "a.myshopify.com" then Except.error "revoked token"
        else Except.ok ⟨⟨0, 0⟩, ⟨0, 0⟩, ⟨0, 0⟩⟩)
      [⟨"T1", "a.myshopify.com", "tok1"⟩, ⟨"T2", "b.myshopify.com", "tok2"⟩] =
      [TenantSyncOutcome.failed "a.myshopify.com" "revoked token",
        TenantSyncOutcome.synced "b.myshopify.com" ⟨⟨0, 0⟩, ⟨0, 0⟩, ⟨0, 0⟩⟩] := by
  have h := c8_per_tenant_isolation
    (fun tn => if tn.shopDomain = "a.myshopify.com" then Except.error "revoked token"
      else Except.ok ⟨⟨0, 0⟩, ⟨0, 0⟩, ⟨0, 0⟩⟩)
    [] [⟨"T2", "b.myshopify.com", "tok2"⟩] ⟨"T1", "a.myshopify.com", "tok1"⟩
    "revoked token" (by rfl)
  exact h.trans (by rfl)

/-! ## Claim C9 -/

/-- C9: the collection fetcher follows `rel="next"` cursors through the whole
chain and returns the concatenation of all pages in order, and a transport
failure on any page of the chain propagates as the overall result, with no
retry and no records returned. -/
theorem c9_cursor_pagination
    (fetch : Option String → Except TransportError (PageResponse ShopifyCustomer))
    (fuel n k : Nat) (recs : List ShopifyCustomer) (e : TransportError) :
    (FetchChain fetch none n recs → n ≤ fuel →
      ShopifyService.getCustomers fetch fuel = Except.ok recs) ∧
    (FetchFails fetch none k e → k < fuel →
      ShopifyService.getCustomers fetch fuel = Except.error e) := by
  constructor
  · intro h hle
    have hc := fetchAllPages_chain h fuel [] hle
    rw [List.nil_append] at hc
    exact hc
  · intro h hlt
    exact fetchAllPages_fails h fuel [] hlt

/-- C9 witness: a concrete two-page chain is concatenated in order, and a
failing endpoint propagates its transport error. -/
theorem c9_cursor_pagination_witness :
    ShopifyService.getCustomers pageFetchTwo 2 =
      Except.ok [sampleCustomer "C1" "1.00", sampleCustomer "C2" "2.00"] ∧
    ShopifyService.getCustomers pageFetchFailing 1 =
      Except.error (TransportError.networkError "ECONNRESET") := by
  constructor
  · exact (c9_cursor_pagination pageFetchTwo 2 2 0
      [sampleCustomer "C1" "1.00", sampleCustomer "C2" "2.00"]
      (TransportError.httpError 0)).1
      (FetchChain.step none [sampleCustomer "C1" "1.00"] "cursor2" 1
        [sampleCustomer "C2" "2.00"] rfl
        (FetchChain.last (some "cursor2") [sampleCustomer "C2" "2.00"] rfl))
      (le_refl 2)
  · exact (c9_cursor_pagination pageFetchFailing 1 1 0 []
      (TransportError.networkError "ECONNRESET")).2
      (FetchFails.here none (TransportError.networkError "ECONNRESET") rfl)
      Nat.zero_lt_one

/-! ## Claim C10 -/

/-- C10: the single-record fetchers are total over their outcomes — a
transport error and a response without the record both map to null, and the
two are indistinguishable to the caller — while a successful response yields
the record; consequently the order-webhook handler performs no ingestion when
the single-order fetch fails or returns null; collection fetches, by
contrast, propagate the transport error. -/
theorem c10_single_fetch_total (e : TransportError) (o : ShopifyOrder)
    (c : ShopifyCustomer) (p : ShopifyProduct) :
    ShopifyService.getOrder (Except.error e) = none ∧
    ShopifyService.getOrder (Except.ok none) = none ∧
    ShopifyService.getOrder (Except.ok (some o)) = some o ∧
    ShopifyService.getCustomer (Except.error e) =
      ShopifyService.getCustomer (Except.ok none) ∧
    ShopifyService.getCustomer (Except.ok (some c)) = some c ∧
    ShopifyService.getProduct (Except.error e) =
      ShopifyService.getProduct (Except.ok none) ∧
    ShopifyService.getProduct (Except.ok (some p)) = some p ∧
    (∀ (gor : String → Except TransportError (Option ShopifyOrder))
      (payload : WebhookPayload) (oid : String),
      payload.id = some oid → ShopifyService.getOrder (gor oid) = none →
      handleOrderWebhook gor payload = []) ∧
    ShopifyService.getCustomers (fun _ => Except.error e) 1 = Except.error e := by
  refine ⟨rfl, rfl, rfl, rfl, rfl, rfl, rfl, ?_, rfl⟩
  intro gor payload oid hid hnone
  unfold handleOrderWebhook
  rw [hid]
  show (match ShopifyService.getOrder (gor oid) with
    | none => []
    | some _ => [SyncAction.orderResync]) = []
  rw [hnone]

/-- C10 witness: a timed-out single-order fetch yields no ingestion from the
order-webhook handler. -/
theorem c10_single_fetch_total_witness :
    handleOrderWebhook (fun _ => Except.error (TransportError.networkError "timeout"))
      ⟨some "42"⟩ = [] :=
  (c10_single_fetch_total (TransportError.networkError "timeout")
    (sampleOrder "O1" "1.00") (sampleCustomer "C1" "1.00")
    cexBadPriceProduct).2.2.2.2.2.2.2.1
    (fun _ => Except.error (TransportError.networkError "timeout")) ⟨some "42"⟩ "42"
    rfl rfl

/-! ## Claim C3 -/

/-- C3: for each entity type, a second ingestion of the same remote
collection of N records yields created = 0 and updated = N, and leaves the
entity type's row count exactly as it was after the first ingestion. -/
theorem c3_idempotent_second_run (tid : String) (s : Store) (hW : s.WF)
    (rc : List ShopifyCustomer) (rp : List ShopifyProduct)
    (ro : List ShopifyOrder) :
    ((ingestCustomers tid rc (ingestCustomers tid rc s).1).2 = ⟨0, rc.length⟩ ∧
      (ingestCustomers tid rc (ingestCustomers tid rc s).1).1.customers.length =
        (ingestCustomers tid rc s).1.customers.length) ∧
    ((ingestProducts tid rp (ingestProducts tid rp s).1).2 = ⟨0, rp.length⟩ ∧
      (ingestProducts tid rp (ingestProducts tid rp s).1).1.products.length =
        (ingestProducts tid rp s).1.products.length) ∧
    ((ingestOrders tid ro (ingestOrders tid ro s).1).2 = ⟨0, ro.length⟩ ∧
      (ingestOrders tid ro (ingestOrders tid ro s).1).1.orders.length =
        (ingestOrders tid ro s).1.orders.length) := by
  refine ⟨?_, ?_, ?_⟩
  · exact ingestCustomers_all_updates (ingestCustomers_WF hW)
      (fun c hc => ingestCustomers_mem_present hW hc)
  · exact ingestProducts_all_updates (ingestProducts_WF hW)
      (fun p hp => ingestProducts_mem_present hW hp)
  · exact ingestOrders_all_updates (ingestOrders_WF hW)
      (fun o ho => ingestOrders_mem_present hW ho)

/-- C3 witness: two customers ingested twice from the empty store give
created = 0, updated = 2 on the second run. -/
theorem c3_idempotent_second_run_witness :
    (ingestCustomers "t1" [sampleCustomer "C1" "1.00", sampleCustomer "C2" "2.00"]
      (ingestCustomers "t1" [sampleCustomer "C1" "1.00", sampleCustomer "C2" "2.00"]
        emptyStore).1).2 = ⟨0, 2⟩ :=
  ((c3_idempotent_second_run "t1" emptyStore emptyStore_WF
    [sampleCustomer "C1" "1.00", sampleCustomer "C2" "2.00"] [] []).1).1

/-! ## Claim C4 -/

/-- C4: ingesting a remote customer whose natural key is absent produces
exactly one row with that key; a subsequent ingestion of the same remoteId
with changed fields overwrites that same row in place — same internal id, the
new email stored — and no second row with the key appears. -/
theorem c4_upsert_single_row (tid k : String) (remote1 : List ShopifyCustomer)
    (c' : ShopifyCustomer) (s : Store) (hW : s.WF)
    (h0 : s.findCustomer tid k = none) (hmem : ∃ c ∈ remote1, c.id = k)
    (hc' : c'.id = k) :
    countCustomerKey (ingestCustomers tid remote1 s).1 tid k = 1 ∧
    ((ingestCustomers tid remote1 s).1.findCustomer tid k).isSome ∧
    ∀ ex, (ingestCustomers tid remote1 s).1.findCustomer tid k = some ex →
      (ingestCustomers tid [c'] (ingestCustomers tid remote1 s).1).1.findCustomer
          tid k = some (applyCustomerData c' ex) ∧
      (applyCustomerData c' ex).id = ex.id ∧
      (applyCustomerData c' ex).email = jsStrOrNull c'.email ∧
      countCustomerKey
        (ingestCustomers tid [c'] (ingestCustomers tid remote1 s).1).1 tid k = 1 := by
  have hcount := ingestCustomers_count_creates hW h0 hmem
  have hW1 := @ingestCustomers_WF tid remote1 s hW
  have hpos : 0 < countCustomerKey (ingestCustomers tid remote1 s).1 tid k := by
    rw [hcount]
    exact Nat.zero_lt_one
  have hsome := (countP_pos_iff_find?_isSome (customerKeyP tid k)
    (ingestCustomers tid remote1 s).1.customers).mp hpos
  refine ⟨hcount, hsome, ?_⟩
  intro ex hex
  have hex' : (ingestCustomers tid remote1 s).1.findCustomer tid c'.id = some ex := by
    rw [hc']
    exact hex
  have hsing : (ingestCustomers tid [c'] (ingestCustomers tid remote1 s).1).1 =
      (ingestCustomerStep tid (ingestCustomers tid remote1 s).1 c').1 := rfl
  refine ⟨?_, applyCustomerData_id c' ex, rfl, ?_⟩
  · rw [hsing, ← hc']
    exact ingestCustomerStep_find_self_found hW1.customersNodup hex'
  · rw [hsing]
    have hp := ingestCustomerStep_count_found hW1.customersNodup hex' tid k
    rw [hp, hcount]

/-- C4 witness: ingesting customer C1 into the empty store yields exactly one
row with key (t1, C1); re-ingesting C1 with a changed email keeps it a single
row. -/
theorem c4_upsert_single_row_witness :
    countCustomerKey
      (ingestCustomers "t1" [sampleCustomer "C1" "10.00"] emptyStore).1 "t1" "C1" = 1 :=
  (c4_upsert_single_row "t1" "C1" [sampleCustomer "C1" "10.00"]
    (sampleCustomer "C1" "12.00") emptyStore emptyStore_WF rfl
    ⟨sampleCustomer "C1" "10.00", by decide⟩ rfl).1

/-! ## Claim C5 -/

/-- C5 counterexample: a product whose first variant has an unparsable price
string maps to a stored price of NaN — `parseFloat` with no `|| 0` guard —
not to the claimed zero value. -/
theorem c5_counterexample :
    (productData cexBadPriceProduct "t1" 0).price = some JSNum.nan ∧
    ¬ (productData cexBadPriceProduct "t1" 0).price = some (JSNum.num 0) := by
  decide

/-- C5 (amended): the zero-defaulting of unparsable numeric strings holds for
the fields coerced with `|| 0` — a customer's total spent, an order's total
price, a line item's price — and every remote record is persisted regardless
of parse failures; but a product's representative price is stored as the raw
`parseFloat` of the first variant's price (NaN when unparsable), not zero. -/
theorem c5_numeric_default_mapping (c : ShopifyCustomer) (o : ShopifyOrder)
    (item : ShopifyLineItem) (p : ShopifyProduct) (v : ShopifyVariant)
    (vs : List ShopifyVariant) (tid : String) (rid oid : Nat)
    (cid pid : Option Nat) (s : Store) (hW : s.WF)
    (remote : List ShopifyCustomer) :
    (parseFloat c.total_spent = JSNum.nan →
      (customerData c tid rid).totalSpent = 0) ∧
    (parseFloat o.total_price = JSNum.nan →
      (orderData o cid tid rid).totalPrice = 0) ∧
    (parseFloat item.price = JSNum.nan →
      (orderItemData item oid pid rid).price = 0) ∧
    (p.variants = v :: vs →
      (productData p tid rid).price = some (parseFloat v.price)) ∧
    (c ∈ remote →
      ((ingestCustomers tid remote s).1.findCustomer tid c.id).isSome) := by
  refine ⟨?_, ?_, ?_, ?_, ?_⟩
  · intro h
    simp [customerData, parseFloatOr0, h]
  · intro h
    simp [orderData, parseFloatOr0, h]
  · intro h
    simp [orderItemData, parseFloatOr0, h]
  · intro h
    simp [productData, h]
  · intro h
    exact ingestCustomers_mem_present hW h

/-- C5 witness: in a batch of ten remote customers where `C10` has an
unparsable `total_spent`, the malformed record maps to zero spend, is still
persisted, and all ten rows exist. -/
theorem c5_numeric_default_mapping_witness :
    (customerData (sampleCustomer "C10" "not-a-number") "t1" 0).totalSpent = 0 ∧
    ((ingestCustomers "t1" tenCustomers emptyStore).1.findCustomer
      "t1" "C10").isSome ∧
    (ingestCustomers "t1" tenCustomers emptyStore).1.customers.length = 10 := by
  have h := c5_numeric_default_mapping (sampleCustomer "C10" "not-a-number")
    (sampleOrder "O1" "1.00") ⟨"L1", none, "x", 1, "1.00", none, none, none⟩
    cexBadPriceProduct ⟨"not-a-number", none, none⟩ [] "t1" 0 0 none none
    emptyStore emptyStore_WF tenCustomers
  refine ⟨h.1 (by decide), h.2.2.2.2 (by decide), by decide⟩

/-! ## Claim C6 -/

/-- C6: an order whose remote customer reference has no reconciled row in the
tenant partition is still stored, with a null customer reference — likewise a
line item's product reference resolves to null when no product row exists —
and once the referenced customer has been ingested, re-running the order
ingestion resolves the stored reference to the customer row's internal id. -/
theorem c6_weak_reference_resolution (tid cid : String) (o : ShopifyOrder)
    (c : ShopifyCustomer) (s : Store) (hW : s.WF) (hoc : o.customer = some cid)
    (hne : cid ≠ "") (habs : s.findCustomer tid cid = none) (hcid : c.id = cid) :
    ((ingestOrders tid [o] s).1.findOrder tid o.id).isSome ∧
    (∀ row, (ingestOrders tid [o] s).1.findOrder tid o.id = some row →
      row.customerId = none) ∧
    (∀ item : ShopifyLineItem,
      (∀ pid, item.product_id = some pid → s.findProduct tid pid = none) →
      resolveProductId tid s item = none) ∧
    ((ingestCustomers tid [c] (ingestOrders tid [o] s).1).1.findCustomer
      tid cid).isSome ∧
    (∀ r, (ingestCustomers tid [c] (ingestOrders tid [o] s).1).1.findCustomer
        tid cid = some r →
      ∀ row, (ingestOrders tid [o]
          (ingestCustomers tid [c] (ingestOrders tid [o] s).1).1).1.findOrder
            tid o.id = some row →
        row.customerId = some r.id) := by
  have hres : resolveCustomerId tid s o = none :=
    resolveCustomerId_absent hoc hne habs
  have hsing : (ingestOrders tid [o] s).1 = (ingestOrderStep tid s o).1 := rfl
  have hW1 : (ingestOrders tid [o] s).1.WF := ingestOrders_WF hW
  refine ⟨?_, ?_, ?_, ?_, ?_⟩
  · rw [hsing]
    cases hf : s.findOrder tid o.id with
    | some ex => rw [ingestOrderStep_find_self_found hW.ordersNodup hf]; rfl
    | none => rw [ingestOrderStep_find_self_none hf]; rfl
  · intro row hrow
    rw [hsing] at hrow
    cases hf : s.findOrder tid o.id with
    | some ex =>
      rw [ingestOrderStep_find_self_found hW.ordersNodup hf] at hrow
      have hrw : row = applyOrderData o (resolveCustomerId tid s o) ex :=
        (Option.some.inj hrow).symm
      rw [hrw, applyOrderData_customerId, hres]
    | none =>
      rw [ingestOrderStep_find_self_none hf] at hrow
      have hrw : row = orderData o (resolveCustomerId tid s o) tid s.nextId :=
        (Option.some.inj hrow).symm
      rw [hrw, orderData_customerId, hres]
  · intro item h
    exact resolveProductId_absent h
  · have hm := @ingestCustomers_mem_present tid [c] (ingestOrders tid [o] s).1 hW1
      c (List.mem_singleton.mpr rfl)
    rw [← hcid]
    exact hm
  · intro r hr row hrow
    have hW2 : (ingestCustomers tid [c] (ingestOrders tid [o] s).1).1.WF :=
      ingestCustomers_WF hW1
    have hr' : (ingestCustomers tid [c] (ingestOrders tid [o] s).1).1.findCustomer
        tid cid = some r := hr
    have hres2 : resolveCustomerId tid
        (ingestCustomers tid [c] (ingestOrders tid [o] s).1).1 o = some r.id :=
      resolveCustomerId_present hoc hne hr'
    have hsing2 : (ingestOrders tid [o]
        (ingestCustomers tid [c] (ingestOrders tid [o] s).1).1).1 =
        (ingestOrderStep tid
          (ingestCustomers tid [c] (ingestOrders tid [o] s).1).1 o).1 := rfl
    rw [hsing2] at hrow
    cases hf : (ingestCustomers tid [c] (ingestOrders tid [o] s).1).1.findOrder
        tid o.id with
    | some ex =>
      rw [ingestOrderStep_find_self_found hW2.ordersNodup hf] at hrow
      have hrw : row = applyOrderData o
          (resolveCustomerId tid
            (ingestCustomers tid [c] (ingestOrders tid [o] s).1).1 o) ex :=
        (Option.some.inj hrow).symm
      rw [hrw, applyOrderData_customerId, hres2]
    | none =>
      rw [ingestOrderStep_find_self_none hf] at hrow
      have hrw : row = orderData o
          (resolveCustomerId tid
            (ingestCustomers tid [c] (ingestOrders tid [o] s).1).1 o) tid
          (ingestCustomers tid [c] (ingestOrders tid [o] s).1).1.nextId :=
        (Option.some.inj hrow).symm
      rw [hrw, orderData_customerId, hres2]

/-- C6 witness: at the concrete scenario — order O1 referencing customer C9,
no customer rows yet — the order is stored and the customer row is present
after the follow-up customer ingestion. -/
theorem c6_weak_reference_resolution_witness :
    ((ingestOrders "t1" [{ id := "O1", total_price := "10.00", customer := some "C9" }]
      emptyStore).1.findOrder "t1" "O1").isSome ∧
    ((ingestCustomers "t1" [sampleCustomer "C9" "5.00"]
      (ingestOrders "t1" [{ id := "O1", total_price := "10.00", customer := some "C9" }]
        emptyStore).1).1.findCustomer "t1" "C9").isSome := by
  have h := c6_weak_reference_resolution "t1" "C9"
    { id := "O1", total_price := "10.00", customer := some "C9" }
    (sampleCustomer "C9" "5.00") emptyStore emptyStore_WF rfl (by decide) rfl rfl
  exact ⟨h.1, h.2.2.2.1⟩

/-! ## Claim C7 -/

/-- C7: the webhook route performs an ingestion only when the keyed digest of
the raw body under the tenant's stored access token equals the header
signature; with matching headers but a tampered body or signature it responds
401 and performs no ingestion — the store is unchanged — while a correctly
signed orders/updated request for a known shop whose single-order lookup
succeeds performs exactly one order re-sync. -/
theorem c7_webhook_signature_gate (hmac : String → String → String)
    (parseJson : String → Option WebhookPayload)
    (gor : String → Except TransportError (Option ShopifyOrder))
    (tenants : List Tenant) :
    (∀ req : WebhookRequest,
      (webhookShopifyRoute hmac parseJson gor tenants req).2 ≠ [] →
      ∃ t, tenants.find?
          (fun x => decide (x.shopDomain = req.shopDomain.getD "")) = some t ∧
        hmac t.accessToken req.body = req.signature.getD "") ∧
    (∀ (req : WebhookRequest) (sig shop topic : String) (t : Tenant),
      req.signature = some sig → req.shopDomain = some shop →
      req.topic = some topic →
      sig ≠ "" → shop ≠ "" → topic ≠ "" →
      tenants.find? (fun x => decide (x.shopDomain = shop)) = some t →
      ¬ hmac t.accessToken req.body = sig →
      webhookShopifyRoute hmac parseJson gor tenants req =
        (HttpStatus.unauthorized401, []) ∧
      ∀ (tid : String) (rc : List ShopifyCustomer) (rp : List ShopifyProduct)
        (ro : List ShopifyOrder) (s : Store),
        applySyncActions tid rc rp ro
          (webhookShopifyRoute hmac parseJson gor tenants req).2 s = s) ∧
    (∀ (req : WebhookRequest) (sig shop : String) (t : Tenant)
      (payload : WebhookPayload) (oid : String) (ord : ShopifyOrder),
      req.signature = some sig → req.shopDomain = some shop →
      req.topic = some "orders/updated" →
      sig ≠ "" → shop ≠ "" →
      tenants.find? (fun x => decide (x.shopDomain = shop)) = some t →
      hmac t.accessToken req.body = sig →
      parseJson req.body = some payload → payload.id = some oid →
      gor oid = Except.ok (some ord) →
      webhookShopifyRoute hmac parseJson gor tenants req =
        (HttpStatus.ok200, [SyncAction.orderResync])) := by
  refine ⟨?_, ?_, ?_⟩
  · intro req hne
    unfold webhookShopifyRoute at hne
    split at hne
    · exact absurd rfl hne
    · split at hne
      · exact absurd rfl hne
      · rename_i t hfind
        split at hne
        · exact absurd rfl hne
        · rename_i hver
          refine ⟨t, hfind, ?_⟩
          have hv := of_not_not hver
          unfold verifyShopifyWebhook at hv
          exact of_decide_eq_true hv
  · intro req sig shop topic t hrsig hrdom hrtop hsig hshop htopic hfind hbad
    have h1 : jsTruthy req.signature ∧ jsTruthy req.shopDomain ∧
        jsTruthy req.topic := by
      rw [hrsig, hrdom, hrtop]
      simp [jsTruthy, hsig, hshop, htopic]
    have hroute : webhookShopifyRoute hmac parseJson gor tenants req =
        (HttpStatus.unauthorized401, []) := by
      unfold webhookShopifyRoute
      rw [if_neg (not_not_intro h1), hrsig, hrdom]
      simp only [Option.getD_some]
      split
      · rename_i heq
        rw [hfind] at heq
        cases heq
      · rename_i tenant heq
        rw [hfind] at heq
        have ht : tenant = t := (Option.some.inj heq).symm
        subst ht
        rw [if_pos (by unfold verifyShopifyWebhook; simpa using hbad)]
    refine ⟨hroute, ?_⟩
    intro tid rc rp ro s
    rw [hroute]
    rfl
  · intro req sig shop t payload oid ord hrsig hrdom hrtop hsig hshop hfind
      hgood hparse hid hord
    have h1 : jsTruthy req.signature ∧ jsTruthy req.shopDomain ∧
        jsTruthy req.topic := by
      rw [hrsig, hrdom, hrtop]
      simp [jsTruthy, hsig, hshop]
    unfold webhookShopifyRoute
    rw [if_neg (not_not_intro h1), hrsig, hrdom, hrtop]
    simp only [Option.getD_some]
    split
    · rename_i heq
      rw [hfind] at heq
      cases heq
    · rename_i tenant heq
      rw [hfind] at heq
      have ht : tenant = t := (Option.some.inj heq).symm
      subst ht
      rw [if_neg (by unfold verifyShopifyWebhook; simp [hgood])]
      split
      · rename_i heqp
        rw [hparse] at heqp
        cases heqp
      · rename_i pl heqp
        rw [hparse] at heqp
        have hpl : pl = payload := (Option.some.inj heqp).symm
        subst hpl
        simp [handleOrderWebhook, hid, hord, ShopifyService.getOrder]

/-- C7 witness: with a concrete digest function and a one-tenant table, a
tampered signature is rejected with no actions while the correctly signed
orders/updated request performs exactly one order re-sync. -/
theorem c7_webhook_signature_gate_witness :
    webhookShopifyRoute (fun key msg => key ++ "|" ++ msg)
      (fun _ => some ⟨some "42"⟩)
      (fun _ => Except.ok (some (sampleOrder "42" "10.00")))
      [⟨"T1", "shop.example.com", "tok"⟩]
      ⟨some "WRONG", some "shop.example.com", some "orders/updated", "payload"⟩ =
      (HttpStatus.unauthorized401, []) ∧
    webhookShopifyRoute (fun key msg => key ++ "|" ++ msg)
      (fun _ => some ⟨some "42"⟩)
      (fun _ => Except.ok (some (sampleOrder "42" "10.00")))
      [⟨"T1", "shop.example.com", "tok"⟩]
      ⟨some "tok|payload", some "shop.example.com", some "orders/updated", "payload"⟩ =
      (HttpStatus.ok200, [SyncAction.orderResync]) := by
  have h := c7_webhook_signature_gate (fun key msg => key ++ "|" ++ msg)
    (fun _ => some ⟨some "42"⟩)
    (fun _ => Except.ok (some (sampleOrder "42" "10.00")))
    [⟨"T1", "shop.example.com", "tok"⟩]
  constructor
  · exact (h.2.1 ⟨some "WRONG", some "shop.example.com", some "orders/updated", "payload"⟩
      "WRONG" "shop.example.com" "orders/updated"
      ⟨"T1", "shop.example.com", "tok"⟩ rfl rfl rfl (by decide) (by decide)
      (by decide) (by decide) (by decide)).1
  · exact h.2.2 ⟨some "tok|payload", some "shop.example.com", some "orders/updated", "payload"⟩
      "tok|payload" "shop.example.com"
      ⟨"T1", "shop.example.com", "tok"⟩ ⟨some "42"⟩ "42" (sampleOrder "42" "10.00")
      rfl rfl rfl (by decide) (by decide) (by decide) (by decide) rfl rfl rfl

end XenoFDE
